import Mathlib

/-!
Verification development for the TDK-INTERNAL hybrid lexical/semantic
retrieval engine.  The Python sources are shallowly embedded:

* `AiAgent`       — `attached_assets/ai_agent_1756457514729.py`
  (`naive_similarity`, `bm25_similarity`, `cosine_similarity`,
  `pick_most_related`);
* `SearchService` — `backend/services/search_service.py`
  (`_tokenize`, `_calculate_tf`, `_calculate_idf`, `_calculate_bm25_score`,
  `keyword_search`, `hybrid_search`, `_calculate_mass_selection_threshold`,
  `_apply_mass_selection`, `new_search`) together with
  `backend/services/vector_service.py` (`search_similar`,
  `_cosine_similarity`);
* `FixedSearchService` — `backend/services/fixed_search_service.py`
  (`_calculate_bm25_score`, the `smart_search` mode dispatch).

Python floats are modelled as real numbers (`ℝ`) where the code takes
logarithms and square roots, and as rationals (`ℚ`) for the purely
rational mass-selection / fusion layer.  The external embedding provider
(OpenAI) is modelled as an oracle parameter (`String → List ℝ`, with `[]`
denoting failure, exactly the convention of `llm_service.generate_embedding`).
Unicode NFC normalization inside `_normalize_thai_text` is modelled as the
identity on character sequences (no claim below depends on composed vs
decomposed characters); the tone-mark removal it performs is modelled
faithfully.
-/

/-- A token, i.e. one regex match, as its character list. -/
abbrev Token := List Char

/-! ### Maximal-run extraction (the model of `re.findall` for run regexes)

`runsAux p cur l` walks `l`, accumulating the current run of characters
satisfying `p` in `cur` (reversed); a character with `¬ p` flushes the run.
`runsBy p l` is the list of maximal non-empty runs of `p`-characters of `l`,
which is exactly the match list of the regex `[p]+` over `l`. -/

def runsAux (p : Char → Bool) (cur : List Char) : List Char → List Token
  | [] => if cur = [] then [] else [cur.reverse]
  | c :: rest =>
    if p c then runsAux p (c :: cur) rest
    else (if cur = [] then [] else [cur.reverse]) ++ runsAux p [] rest

def runsBy (p : Char → Bool) (l : List Char) : List Token :=
  runsAux p [] l

/-! ### Character classes used by the tokenizers -/

/-- `[a-zA-Z]` (the character class of the English word regex). -/
def isAlphaEn (c : Char) : Bool :=
  ('a' ≤ c && c ≤ 'z') || ('A' ≤ c && c ≤ 'Z')

/-- `\d` restricted to ASCII, i.e. `[0-9]`. -/
def isDigitAscii (c : Char) : Bool :=
  '0' ≤ c && c ≤ '9'

/-- The Thai Unicode block `[฀-๿]`. -/
def isThaiChar (c : Char) : Bool :=
  0xE00 ≤ c.toNat && c.toNat ≤ 0xE7F

/-- `[a-zA-Z0-9]`, the class of the snippet-ranking token regex. -/
def isAlnumAscii (c : Char) : Bool :=
  isAlphaEn c || isDigitAscii c

/-- Model of a Python regex *word character* (`\w`) for the scripts this
repository handles: ASCII letters and digits, underscore, and the Thai
block.  Word boundaries `\b` are boundaries between `\w` and non-`\w`. -/
def isWordChar (c : Char) : Bool :=
  isAlphaEn c || isDigitAscii c || c = '_' || isThaiChar c

/-! ### Descending sort by a key

Models Python's `list.sort(key=..., reverse=True)`.  (Python's sort is
stable; `insertionSort` with a non-strict key relation may order tied
elements differently, and no theorem below depends on the relative order
of tied scores.) -/

/-- `keyGE key a b` holds when `a`'s key is at least `b`'s key. -/
def keyGE {α β : Type} [LinearOrder α] (key : β → α) (a b : β) : Prop :=
  key b ≤ key a

instance {α β : Type} [LinearOrder α] (key : β → α) :
    DecidableRel (keyGE key) := fun a b =>
  inferInstanceAs (Decidable (key b ≤ key a))

instance {α β : Type} [LinearOrder α] (key : β → α) :
    IsTotal β (keyGE key) :=
  ⟨fun a b => le_total (key b) (key a)⟩

instance {α β : Type} [LinearOrder α] (key : β → α) :
    IsTrans β (keyGE key) :=
  ⟨fun _ _ _ h₁ h₂ => le_trans h₂ h₁⟩

/-- Sort a list in descending order of `key` (model of
`xs.sort(key=..., reverse=True)`). -/
def sortDesc {α β : Type} [LinearOrder α] (key : β → α) (l : List β) : List β :=
  l.insertionSort (keyGE key)

/-- Python `str.strip()` on the underlying character list. -/
def trimChars (l : List Char) : List Char :=
  ((l.dropWhile (·.isWhitespace)).reverse.dropWhile (·.isWhitespace)).reverse

/-- Python `str.strip()`. -/
def pyStrip (s : String) : String :=
  ⟨trimChars s.toList⟩

namespace AiAgent

/-- `re.findall(r"[a-zA-Z0-9]+", s.lower())`: maximal alphanumeric runs of
the lower-cased text (`attached_assets/ai_agent_1756457514729.py`). -/
def aiTokens (s : String) : List Token :=
  runsBy isAlnumAscii (s.toList.map Char.toLower)

/-- `naive_similarity`: Jaccard similarity of the two token sets. -/
noncomputable def naive_similarity (a b : String) : ℝ :=
  let atoks := (aiTokens a).dedup
  let btoks := (aiTokens b).dedup
  if atoks = [] ∨ btoks = [] then 0
  else ((atoks.filter (fun t => decide (t ∈ btoks))).length : ℝ) /
    (((atoks ++ btoks).dedup).length : ℝ)

/-- The `corpus_stats` dictionary handed to `bm25_similarity`:
`avg_doc_len`, `total_docs` and the `doc_freq` map (`none` when a term is
absent from the dictionary). -/
structure CorpusStats where
  avg_doc_len : ℝ
  total_docs : ℕ
  doc_freq : Token → Option ℕ

/-- `bm25_similarity(query, document, k1, b, corpus_stats)`.  Mirrors the
source: tokenize both texts; return 0 if either token list is empty; for
each unique query term present in the document accumulate
`idf * tf_component` with `idf = log((total_docs + 1)/(df + 1)) + 1.0` and
`df = doc_freq.get(term, 1)`; if any term matched, divide by the number of
unique query terms and multiply by the coverage bonus
`0.5 + 0.5 * coverage`; finally clamp with `max(score, 0.0)`. -/
noncomputable def bm25_similarity (query document : String) (k1 b : ℝ)
    (corpus_stats : Option CorpusStats) : ℝ :=
  let query_terms := aiTokens query
  let doc_terms := aiTokens document
  if query_terms = [] ∨ doc_terms = [] then 0
  else
    let doc_len : ℝ := (doc_terms.length : ℝ)
    let avg_doc_len : ℝ :=
      match corpus_stats with | some s => s.avg_doc_len | none => 50
    let total_docs : ℕ :=
      match corpus_stats with | some s => s.total_docs | none => 10
    let dfMap : Token → Option ℕ :=
      match corpus_stats with | some s => s.doc_freq | none => fun _ => none
    let query_term_set := query_terms.dedup
    let matched := query_term_set.filter (fun t => decide (t ∈ doc_terms))
    let score : ℝ :=
      (matched.map (fun term =>
        let tf : ℝ := (doc_terms.count term : ℝ)
        let df : ℝ := ((dfMap term).getD 1 : ℕ)
        let idf : ℝ := Real.log (((total_docs : ℝ) + 1) / (df + 1)) + 1.0
        let tf_component : ℝ :=
          tf * (k1 + 1) / (tf + k1 * (1 - b + b * (doc_len / avg_doc_len)))
        idf * tf_component)).sum
    let score : ℝ :=
      if 0 < matched.length then
        score / (query_term_set.length : ℝ) *
          (0.5 + 0.5 * ((matched.length : ℝ) / (query_term_set.length : ℝ)))
      else score
    max score 0.0

/-- The BM25 formula exactly as the specification words it (§4.3 steps
1–5): sum `idf * tf_component` over the unique query terms present in the
document, divide by the number of unique query terms, and multiply by the
coverage bonus `(0.5 + 0.5 * coverage)`.  Stated only to be compared with
`bm25_similarity`, which is translated from the source. -/
noncomputable def specBm25 (query document : String) (s : CorpusStats) : ℝ :=
  let uniqueQueryTerms := (aiTokens query).dedup
  let docTerms := aiTokens document
  let matchedTerms := uniqueQueryTerms.filter (fun t => decide (t ∈ docTerms))
  let total : ℝ :=
    (matchedTerms.map (fun term =>
      let tf : ℝ := (docTerms.count term : ℝ)
      let df : ℝ := ((s.doc_freq term).getD 1 : ℕ)
      let idf : ℝ := Real.log (((s.total_docs : ℝ) + 1) / (df + 1)) + 1.0
      idf * (tf * (1.2 + 1) /
        (tf + 1.2 * (1 - 0.75 + 0.75 * ((docTerms.length : ℝ) / s.avg_doc_len)))))).sum
  let coverage : ℝ := (matchedTerms.length : ℝ) / (uniqueQueryTerms.length : ℝ)
  total / (uniqueQueryTerms.length : ℝ) * (0.5 + 0.5 * coverage)

/-- `cosine_similarity` from the snippet-ranking module: 0 on empty or
length-mismatched vectors and on zero norms, else the standard formula. -/
noncomputable def cosine_similarity (vec1 vec2 : List ℝ) : ℝ :=
  if vec1 = [] ∨ vec2 = [] ∨ vec1.length ≠ vec2.length then 0
  else
    let dot_product := ((vec1.zip vec2).map (fun p => p.1 * p.2)).sum
    let norm_vec1 := Real.sqrt ((vec1.map (fun v => v ^ 2)).sum)
    let norm_vec2 := Real.sqrt ((vec2.map (fun v => v ^ 2)).sum)
    if norm_vec1 = 0 ∨ norm_vec2 = 0 then 0
    else dot_product / (norm_vec1 * norm_vec2)

/-- A SQL snippet as `pick_most_related` consumes it: `name`,
`description`, `sql` text fields and an optional cached embedding. -/
structure Snippet where
  name : String
  description : String
  sql : String
  embedding : Option (List ℝ)

/-- One entry of the list `pick_most_related` returns:
`{"snippet": ..., "score": ..., "rank": i + 1}`. -/
structure TopSnippet where
  snippet : Snippet
  score : ℝ
  rank : ℕ

/-- `combined_text = f"{name} {description}".strip()`. -/
def combinedText (s : Snippet) : String :=
  pyStrip (s.name ++ " " ++ s.description)

/-- The corpus statistics `pick_most_related` builds for its BM25 branch:
`all_docs` concatenates name, description and SQL text per snippet. -/
noncomputable def snippetCorpusStats (snippets : List Snippet) : CorpusStats :=
  let all_docs := snippets.map (fun s => s.name ++ " " ++ s.description ++ " " ++ s.sql)
  let doc_lens := all_docs.map (fun d => (aiTokens d).length)
  { avg_doc_len := if doc_lens = [] then 50 else (doc_lens.sum : ℝ) / (doc_lens.length : ℝ)
    total_docs := snippets.length
    doc_freq := fun t =>
      let c := all_docs.countP (fun d => decide (t ∈ aiTokens d))
      if c = 0 then none else some c }

/-- The BM25 branch of `pick_most_related`:
`total_score = name_score * 1.5 + sql_score`. -/
noncomputable def bm25SnippetScores (user_query : String)
    (snippets : List Snippet) : List (Snippet × ℝ) :=
  let corpus_stats := snippetCorpusStats snippets
  snippets.map (fun s =>
    let name_score := bm25_similarity user_query (combinedText s) 1.2 0.75 (some corpus_stats)
    let sql_score := bm25_similarity user_query s.sql 1.2 0.75 (some corpus_stats)
    (s, name_score * 1.5 + sql_score))

/-- The Jaccard branch of `pick_most_related`:
`total_score = max(name_sim * 1.5, sql_sim)`. -/
noncomputable def jaccardSnippetScores (user_query : String)
    (snippets : List Snippet) : List (Snippet × ℝ) :=
  snippets.map (fun s =>
    let name_sim := naive_similarity user_query (combinedText s)
    let sql_sim := naive_similarity user_query s.sql
    (s, max (name_sim * 1.5) sql_sim))

/-- Shared tail of `pick_most_related`: sort the scored snippets by score
descending and return the top 3 with their 1-based ranks. -/
noncomputable def topThree (snippet_scores : List (Snippet × ℝ)) : List TopSnippet :=
  ((sortDesc Prod.snd snippet_scores).take 3).mapIdx
    (fun i p => ⟨p.1, p.2, i + 1⟩)

/-- The lexical (non-embedding) part of `pick_most_related`. -/
noncomputable def lexicalTop (user_query : String) (snippets : List Snippet)
    (use_bm25 : Bool) : List TopSnippet :=
  if use_bm25 then topThree (bm25SnippetScores user_query snippets)
  else topThree (jaccardSnippetScores user_query snippets)

/-- `pick_most_related(user_query, snippets, use_bm25)`.  `use_embedding`
models the configuration flags (`use_embedding_similarity` /
`use_embedding`) conjoined with embedding-model availability; `embedQ`
models `calculate_embedding` (`none` = failure).  A snippet whose
`embedding` is `None`/`[]` (falsy) is skipped in the embedding pass; if no
snippet yields an embedding score the code forces `use_bm25 = True` and
falls back.  (On an empty snippet list the Python returns the empty string
`""`; the empty result is modelled as `[]`.) -/
noncomputable def pick_most_related (embedQ : String → Option (List ℝ))
    (use_embedding : Bool) (user_query : String) (snippets : List Snippet)
    (use_bm25 : Bool) : List TopSnippet :=
  if snippets.isEmpty then []
  else
    match (if use_embedding then embedQ user_query else none) with
    | none => lexicalTop user_query snippets use_bm25
    | some query_embedding =>
      let snippet_scores := snippets.filterMap (fun s =>
        match s.embedding with
        | none => none
        | some e =>
          if e = [] then none
          else some (s, cosine_similarity query_embedding e))
      if snippet_scores.isEmpty then lexicalTop user_query snippets true
      else topThree snippet_scores

end AiAgent

namespace SearchService

/-- The four Thai tone marks removed by `_normalize_thai_text`
(U+0E48 – U+0E4B). -/
def thaiToneMarks : List Char :=
  [Char.ofNat 0xE48, Char.ofNat 0xE49, Char.ofNat 0xE4A, Char.ofNat 0xE4B]

/-- `_normalize_thai_text` on a character list: Unicode NFC (modelled as
the identity) followed by removal of the four tone marks. -/
def normalizeThaiChars (l : List Char) : List Char :=
  l.filter (fun c => decide (c ∉ thaiToneMarks))

/-- The character-level preprocessing `_tokenize` applies before regex
matching: `text.lower()` followed by `_normalize_thai_text`. -/
def tokenChars (text : String) : List Char :=
  normalizeThaiChars (text.toList.map Char.toLower)

/-- `_tokenize` from `search_service.py`: lower-case, normalize, then
collect Thai-block runs of length > 1 (`[฀-๿]+`), English words
of length > 1 (`\b[a-zA-Z]+\b`, i.e. word-character runs consisting
entirely of letters) and numbers (`\b\d+\b`, word-character runs
consisting entirely of digits), deduplicated (`list(set(tokens))`). -/
def tokenize (text : String) : List Token :=
  if text.toList = [] then []
  else
    let cs := tokenChars text
    let thai_matches := (runsBy isThaiChar cs).filter (fun m => 1 < m.length)
    let word_runs := runsBy isWordChar cs
    let english_matches :=
      (word_runs.filter (fun r => r.all isAlphaEn)).filter (fun t => 1 < t.length)
    let number_matches := word_runs.filter (fun r => r.all isDigitAscii)
    (thai_matches ++ english_matches ++ number_matches).dedup

/-- `_calculate_tf`: relative frequency of `term` in the document. -/
noncomputable def calculateTf (term : Token) (document : String) : ℝ :=
  let tokens := tokenize document
  if tokens = [] then 0
  else (tokens.count term : ℝ) / (tokens.length : ℝ)

/-- `_calculate_idf`: `log(len(documents) / containing_docs)`, 0 when no
document contains the term. -/
noncomputable def calculateIdf (term : Token) (documents : List String) : ℝ :=
  let containing_docs := documents.countP (fun doc => decide (term ∈ tokenize doc))
  if containing_docs = 0 then 0
  else Real.log ((documents.length : ℝ) / (containing_docs : ℝ))

/-- `_calculate_bm25_score(query_terms, document, documents, k1, b)`. -/
noncomputable def calculateBm25Score (query_terms : List Token)
    (document : String) (documents : List String) (k1 b : ℝ) : ℝ :=
  let doc_tokens := tokenize document
  let doc_length := doc_tokens.length
  if doc_length = 0 then 0
  else
    let avg_doc_length : ℝ :=
      ((documents.map (fun doc => (tokenize doc).length)).sum : ℝ) /
        (documents.length : ℝ)
    (query_terms.map (fun term =>
      let tf := calculateTf term document
      let idf := calculateIdf term documents
      let numerator := tf * (k1 + 1)
      let denominator := tf + k1 * (1 - b + b * ((doc_length : ℝ) / avg_doc_length))
      idf * (numerator / denominator))).sum

/-- A document as `keyword_search` consumes it (`id` and `content`; other
dict fields do not influence ranking). -/
structure Doc where
  id : String
  content : String
deriving DecidableEq

/-- One keyword result (`keyword_score` and `score` are both set to the
BM25 value). -/
structure KwResult where
  doc : Doc
  keyword_score : ℝ
  score : ℝ

/-- `keyword_search(query, documents, limit)`: score every document with
non-empty content, keep strictly positive scores, sort descending, cut to
`limit`. -/
noncomputable def keywordSearch (query : String) (documents : List Doc)
    (limit : ℕ) : List KwResult :=
  let query_terms := tokenize query
  if query_terms = [] then []
  else
    let doc_contents := documents.map (fun d => d.content)
    let results := documents.filterMap (fun doc =>
      if doc.content.toList = [] then none
      else
        let bm25_score := calculateBm25Score query_terms doc.content doc_contents 1.2 0.75
        if 0 < bm25_score then some ⟨doc, bm25_score, bm25_score⟩ else none)
    (sortDesc KwResult.keyword_score results).take limit

/-- One stored chunk of the in-memory vector store
(`vector_service.vector_store`). -/
structure Chunk where
  chunk_index : ℕ
  content : String
  embedding : List ℝ

/-- One vector-store entry: a document id with its embedded chunks. -/
structure StoreDoc where
  id : String
  chunks : List Chunk

/-- The in-memory vector store (a dict keyed by document id; modelled as
an association list looked up by `find?`). -/
abbrev Store := List StoreDoc

/-- `VectorService._cosine_similarity` (numpy): a length mismatch raises
inside the `try` and yields 0; a zero norm yields a numpy `nan`, which
fails every `similarity >= threshold` test downstream, so it is modelled
as 0 (equivalent for the non-negative thresholds used in this service). -/
noncomputable def npCosineSimilarity (vec1 vec2 : List ℝ) : ℝ :=
  if vec1.length ≠ vec2.length then 0
  else
    let dot := ((vec1.zip vec2).map (fun p => p.1 * p.2)).sum
    let den := Real.sqrt ((vec1.map (fun v => v ^ 2)).sum) *
      Real.sqrt ((vec2.map (fun v => v ^ 2)).sum)
    if den = 0 then 0 else dot / den

/-- One result of `search_similar`. -/
structure VecResult where
  document_id : String
  chunk_index : ℕ
  content : String
  similarity : ℝ
  score : ℝ

/-- `VectorService.search_similar`.  `embedQ` models
`llm_service.generate_embedding` (`[]` = failure, exactly the Python
convention); `specific_document_ids` is falsy-checked like the source
(`specific_document_ids if specific_document_ids else vector_store keys`). -/
noncomputable def searchSimilar (embedQ : String → List ℝ)
    (embeddings_enabled : Bool) (query : String) (store : Store)
    (limit : ℕ) (threshold : ℝ)
    (specific_document_ids : Option (List String)) : List VecResult :=
  if !embeddings_enabled then []
  else
    let query_embedding := embedQ query
    if query_embedding = [] then []
    else
      let search_docs : List String :=
        match specific_document_ids with
        | some ids => if ids = [] then store.map (fun d => d.id) else ids
        | none => store.map (fun d => d.id)
      let results : List VecResult := (search_docs.map (fun doc_id =>
        (match store.find? (fun d => d.id == doc_id) with
        | none => []
        | some doc_data =>
          doc_data.chunks.filterMap (fun chunk_data =>
            let similarity := npCosineSimilarity query_embedding chunk_data.embedding
            if threshold ≤ similarity then
              some ⟨doc_id, chunk_data.chunk_index, chunk_data.content, similarity, similarity⟩
            else none) : List VecResult))).flatten
      (sortDesc VecResult.similarity results).take limit

/-- One hybrid result (`score` equals `hybrid_score`, as in the source). -/
structure HybridResult where
  doc : Doc
  keyword_score : ℝ
  vector_score : ℝ
  hybrid_score : ℝ
  score : ℝ

/-- The five mock documents `hybrid_search` substitutes for an empty
`documents` argument (`'Mock document {i} content related to: {query}'`). -/
def mockDocuments (query : String) : List Doc :=
  [1, 2, 3, 4, 5].map (fun i =>
    ⟨"doc_" ++ toString i,
      "Mock document " ++ toString i ++ " content related to: " ++ query⟩)

/-- The per-id score combination of `hybrid_search`'s `combined_scores`
dict: the keyword and vector contributions of `doc_id` (later entries of
each result list overwrite earlier ones, as repeated dict assignment
does), the document carried by the keyword result or looked up in the
corpus, the weighted fusion, and the strict `hybrid_score > threshold`
filter. -/
noncomputable def combineScores (keyword_results : List KwResult)
    (vector_results : List VecResult) (documents : List Doc)
    (keyword_weight vector_weight threshold : ℝ) (doc_id : String) :
    Option HybridResult :=
  let kwEntry := keyword_results.reverse.find? (fun r => r.doc.id == doc_id)
  let keyword_score : ℝ :=
    match kwEntry with | some r => r.keyword_score | none => 0
  let vector_score : ℝ :=
    match vector_results.reverse.find? (fun r => r.document_id == doc_id) with
    | some r => r.similarity
    | none => 0
  let docEntry : Option Doc :=
    match kwEntry with
    | some r => some r.doc
    | none => documents.find? (fun d => d.id == doc_id)
  match docEntry with
  | none => none
  | some doc =>
    let hybrid_score := keyword_score * keyword_weight + vector_score * vector_weight
    if threshold < hybrid_score then
      some ⟨doc, keyword_score, vector_score, hybrid_score, hybrid_score⟩
    else none

/-- `hybrid_search`: mock substitution for an empty corpus, keyword +
vector retrieval, per-id score combination (`combineScores`), descending
sort, limit cut. -/
noncomputable def hybridSearch (embedQ : String → List ℝ)
    (embeddings_enabled : Bool) (query : String) (store : Store)
    (documents : List Doc) (limit : ℕ)
    (keyword_weight vector_weight threshold : ℝ) : List HybridResult :=
  let documents := if documents.isEmpty then mockDocuments query else documents
  let keyword_results := keywordSearch query documents (limit * 2)
  let doc_ids := documents.map (fun d => d.id)
  let vector_results :=
    searchSimilar embedQ embeddings_enabled query store (limit * 2) threshold (some doc_ids)
  let kwIds := keyword_results.map (fun r => r.doc.id)
  let combined_ids :=
    (kwIds ++ (vector_results.map (fun r => r.document_id)).filter
      (fun i => decide (i ∉ kwIds))).dedup
  let final_results := combined_ids.filterMap
    (combineScores keyword_results vector_results documents
      keyword_weight vector_weight threshold)
  (sortDesc HybridResult.hybrid_score final_results).take limit

/-- `_calculate_mass_selection_threshold(scores)`, generic over the score
field (`ℚ` for decidable statements, `ℝ` inside `new_search`). -/
def calculateMassSelectionThreshold {α : Type} [LinearOrderedField α]
    (scores : List α) : α :=
  if scores.isEmpty then 0
  else
    let sorted_scores := sortDesc (fun s : α => s) scores
    if sorted_scores.length = 1 then sorted_scores.headD 0 * 0.6
    else
      let max_score := sorted_scores.headD 0
      let threshold := max_score * 0.6
      match sorted_scores.findIdx? (fun s => decide (s < threshold)) with
      | some i =>
        if (0.7 : α) < (i : α) / (sorted_scores.length : α) then max_score * 0.7
        else threshold
      | none => threshold

/-- `_apply_mass_selection(results)`: filter the results whose score is at
least the dynamic threshold (the `threshold_factor` parameter of the
Python method is unused by its body). -/
def applyMassSelection {α β : Type} [LinearOrderedField α]
    (score : β → α) (results : List β) : List β :=
  if results.isEmpty then results
  else
    let scores := results.map score
    let threshold := calculateMassSelectionThreshold scores
    results.filter (fun r => decide (threshold ≤ score r))

/-- `?`, `!` and `.` — the class of `re.sub(r'[?!.]{2,}', '', query)`. -/
def isPunctMark (c : Char) : Bool :=
  c = '?' || c = '!' || c = '.'

/-- Accumulator pass for `re.sub(r'[?!.]{2,}', '', query)`: a maximal run
of 2 or more punctuation marks is deleted, shorter runs are kept. -/
def scrubAux (pending : List Char) : List Char → List Char
  | [] => if 2 ≤ pending.length then [] else pending.reverse
  | c :: rest =>
    if isPunctMark c then scrubAux (c :: pending) rest
    else (if 2 ≤ pending.length then [] else pending.reverse) ++ c :: scrubAux [] rest

/-- `re.sub(r'[?!.]{2,}', '', l)` over the character list. -/
def removePunctRuns (l : List Char) : List Char :=
  scrubAux [] l

/-- `_preprocess_query`: strip, Thai normalization, excessive-punctuation
removal (no lower-casing here — that happens inside `_tokenize`). -/
def preprocessQuery (query : String) : String :=
  if query.toList = [] then query
  else ⟨removePunctRuns (normalizeThaiChars (trimChars query.toList))⟩

/-- A result as `new_search` hands it to mass selection: its id and its
`score` field (the only field the selection and the counts inspect). -/
structure RItem where
  id : String
  score : ℝ

/-- The dictionary `new_search` returns. -/
structure NewSearchResponse where
  results : List RItem
  total_found : ℕ
  selected_count : ℕ
  final_count : ℕ

/-- `new_search(query, search_type, limit, **kwargs)`: preprocess, route
on `search_type` (any unknown string falls through to the hybrid branch),
apply mass selection, cut to `limit`.  The hybrid branches pass
`documents = None`, hence `[]` here (the mock substitution happens inside
`hybrid_search`); the keyword branch passes a literal empty corpus. -/
noncomputable def newSearch (embedQ : String → List ℝ)
    (embeddings_enabled : Bool) (query : String) (store : Store)
    (search_type : String) (limit : ℕ)
    (keyword_weight vector_weight threshold : ℝ) : NewSearchResponse :=
  let processed_query := preprocessQuery query
  let results : List RItem :=
    if search_type = "smart_hybrid" then
      (hybridSearch embedQ embeddings_enabled processed_query store []
        (limit * 2) keyword_weight vector_weight threshold).map
        (fun r => ⟨r.doc.id, r.score⟩)
    else if search_type = "keyword" then
      (keywordSearch processed_query [] (limit * 2)).map
        (fun r => ⟨r.doc.id, r.score⟩)
    else if search_type = "semantic" then
      (searchSimilar embedQ embeddings_enabled processed_query store
        (limit * 2) 0.3 none).map (fun r => ⟨r.document_id, r.score⟩)
    else
      (hybridSearch embedQ embeddings_enabled processed_query store []
        (limit * 2) keyword_weight vector_weight threshold).map
        (fun r => ⟨r.doc.id, r.score⟩)
  let selected_results := applyMassSelection RItem.score results
  let final_results := selected_results.take limit
  ⟨final_results, results.length, selected_results.length, final_results.length⟩

end SearchService

namespace FixedSearchService

/-- `FixedSearchService._calculate_bm25_score(query_terms, doc_terms,
doc_count, avg_doc_length)` with `self.k1`/`self.b` as parameters: for
each query term present in the document, `df = 1` and
`idf = log((doc_count - df + 0.5) / (df + 0.5))`. -/
noncomputable def calculateBm25Score (query_terms doc_terms : List Token)
    (doc_count : ℕ) (avg_doc_length : ℝ) (k1 b : ℝ) : ℝ :=
  if query_terms = [] ∨ doc_terms = [] then 0
  else
    let doc_length : ℝ := (doc_terms.length : ℝ)
    (query_terms.map (fun term =>
      if doc_terms.count term ≠ 0 then
        let tf : ℝ := (doc_terms.count term : ℝ)
        let df : ℝ := 1
        let idf := Real.log (((doc_count : ℝ) - df + 0.5) / (df + 0.5))
        let numerator := tf * (k1 + 1)
        let denominator := tf + k1 * (1 - b + b * (doc_length / avg_doc_length))
        idf * (numerator / denominator)
      else 0)).sum

/-- The three handler families `smart_search` can route to. -/
inductive SmartRoute
  | hybrid
  | keyword
  | vector
deriving DecidableEq

/-- The `search_type` dispatch chain of `FixedSearchService.smart_search`:
`hybrid`/`smart_hybrid` → hybrid, `keyword` → keyword,
`semantic`/`vector` → vector, anything else defaults to hybrid. -/
def smartSearchRoute (search_type : String) : SmartRoute :=
  if search_type = "hybrid" ∨ search_type = "smart_hybrid" then .hybrid
  else if search_type = "keyword" then .keyword
  else if search_type = "semantic" ∨ search_type = "vector" then .vector
  else .hybrid

end FixedSearchService

/-! ## Spec-side definitions (stated from the specification's words, for
refinement comparisons with the source-translated definitions above) -/

/-- The mass-selection threshold exactly as the specification and claim
word it: start from `max_score * 0.6`; walk the sorted scores to the first
index `i` whose score falls below that initial threshold; if
`i / len(scores) > 0.7`, raise the threshold to `max_score * 0.7` (a
single one-shot escalation). -/
def specMassThreshold (scores : List ℚ) : ℚ :=
  let sorted_scores := sortDesc (fun s : ℚ => s) scores
  let max_score := sorted_scores.headD 0
  let initial := max_score * 0.6
  match sorted_scores.findIdx? (fun s => decide (s < initial)) with
  | some i =>
    if (0.7 : ℚ) < (i : ℚ) / (sorted_scores.length : ℚ) then max_score * 0.7
    else initial
  | none => initial

/-! ## Helper lemmas -/

theorem runsAux_cons (p : Char → Bool) (cur : List Char) (c : Char)
    (rest : List Char) :
    runsAux p cur (c :: rest) =
      if p c then runsAux p (c :: cur) rest
      else (if cur = [] then [] else [cur.reverse]) ++ runsAux p [] rest :=
  rfl

theorem runsAux_append_of_break (p : Char → Bool) (l₂ : List Char) :
    ∀ (l₁ : List Char) (cur : List Char) (h : l₁ ≠ []),
      p (l₁.getLast h) = false →
      runsAux p cur (l₁ ++ l₂) = runsAux p cur l₁ ++ runsAux p [] l₂ := by
  intro l₁
  induction l₁ with
  | nil => intro cur h; exact absurd rfl h
  | cons c rest ih =>
    intro cur h hlast
    cases rest with
    | nil =>
      simp only [List.getLast] at hlast
      simp [runsAux, hlast]
    | cons d rest' =>
      have hlast' : p ((d :: rest').getLast (by simp)) = false := by
        simpa [List.getLast_cons] using hlast
      by_cases hc : p c
      · simp only [List.cons_append] at ih ⊢
        rw [runsAux_cons p cur c (d :: (rest' ++ l₂)), if_pos hc,
          runsAux_cons p cur c (d :: rest'), if_pos hc]
        exact ih (c :: cur) (by simp) hlast'
      · simp only [List.cons_append] at ih ⊢
        rw [runsAux_cons p cur c (d :: (rest' ++ l₂)), if_neg hc,
          runsAux_cons p cur c (d :: rest'), if_neg hc,
          ih [] (by simp) hlast', List.append_assoc]

theorem runsBy_append_of_break (p : Char → Bool) (l₁ l₂ : List Char)
    (h : l₁ ≠ []) (hlast : p (l₁.getLast h) = false) :
    runsBy p (l₁ ++ l₂) = runsBy p l₁ ++ runsBy p l₂ :=
  runsAux_append_of_break p l₂ l₁ [] h hlast

theorem sortDesc_perm {α β : Type} [LinearOrder α] (key : β → α)
    (l : List β) : List.Perm (sortDesc key l) l :=
  List.perm_insertionSort _ l

theorem sortDesc_sorted {α β : Type} [LinearOrder α] (key : β → α)
    (l : List β) : (sortDesc key l).Sorted (keyGE key) :=
  List.sorted_insertionSort _ l

theorem mem_sortDesc {α β : Type} [LinearOrder α] (key : β → α)
    {l : List β} {x : β} : x ∈ sortDesc key l ↔ x ∈ l :=
  List.mem_insertionSort _

theorem sortDesc_length {α β : Type} [LinearOrder α] (key : β → α)
    (l : List β) : (sortDesc key l).length = l.length :=
  (sortDesc_perm key l).length_eq

theorem sortDesc_ne_nil {α β : Type} [LinearOrder α] (key : β → α)
    {l : List β} (h : l ≠ []) : sortDesc key l ≠ [] := by
  intro hnil
  exact h (List.eq_nil_of_length_eq_zero
    (by rw [← sortDesc_length key l, hnil]; rfl))

/-- The head of a descending sort is a maximiser of `key`. -/
theorem key_le_sortDesc_headD {α β : Type} [LinearOrder α] (key : β → α)
    {l : List β} (x : β) (hx : x ∈ l) (d : β) :
    key x ≤ key ((sortDesc key l).headD d) := by
  have hmem : x ∈ sortDesc key l := mem_sortDesc key |>.mpr hx
  rcases hsd : sortDesc key l with _ | ⟨h, t⟩
  · rw [hsd] at hmem; exact absurd hmem (by simp)
  · have hsorted := sortDesc_sorted key l
    rw [hsd] at hsorted hmem
    rcases List.mem_cons.mp hmem with rfl | hmemt
    · simp
    · exact (List.pairwise_cons.mp hsorted).1 x hmemt

/-- The head of a descending sort of a non-empty list is a member. -/
theorem sortDesc_headD_mem {α β : Type} [LinearOrder α] (key : β → α)
    {l : List β} (h : l ≠ []) (d : β) : (sortDesc key l).headD d ∈ l := by
  have hne := sortDesc_ne_nil key h
  rcases hsd : sortDesc key l with _ | ⟨hd, t⟩
  · exact absurd hsd hne
  · have : hd ∈ sortDesc key l := by rw [hsd]; simp
    simpa using mem_sortDesc key |>.mp this

theorem sortDesc_singleton {α β : Type} [LinearOrder α] (key : β → α)
    (x : β) : sortDesc key [x] = [x] :=
  rfl

/-- The dynamic threshold is `0.6 * max` or `0.7 * max` and nothing else
(the escalation is one-shot). -/
theorem massThreshold_eq_or (scores : List ℚ) (h : scores ≠ []) :
    SearchService.calculateMassSelectionThreshold scores =
      (sortDesc (fun s : ℚ => s) scores).headD 0 * 0.6 ∨
    SearchService.calculateMassSelectionThreshold scores =
      (sortDesc (fun s : ℚ => s) scores).headD 0 * 0.7 := by
  have hne : scores.isEmpty = false := by
    simpa [List.isEmpty_iff] using h
  simp only [SearchService.calculateMassSelectionThreshold, hne,
    Bool.false_eq_true, if_false]
  split
  · left; rfl
  · split
    · split
      · right; rfl
      · left; rfl
    · left; rfl

/-- On non-negative scores the dynamic threshold never exceeds the top
score. -/
theorem massThreshold_le_headD (scores : List ℚ) (h : scores ≠ [])
    (hnn : ∀ s ∈ scores, 0 ≤ s) :
    SearchService.calculateMassSelectionThreshold scores ≤
      (sortDesc (fun s : ℚ => s) scores).headD 0 := by
  have hmem := sortDesc_headD_mem (fun s : ℚ => s) h 0
  have h0 : 0 ≤ (sortDesc (fun s : ℚ => s) scores).headD 0 := hnn _ hmem
  rcases massThreshold_eq_or scores h with he | he <;> rw [he] <;> nlinarith

/-- C1: for every non-empty score list, the mass-selection threshold is
`max_score * 0.6`, raised to `max_score * 0.7` exactly when the first
sorted index `i` falling below the initial threshold satisfies
`i / len(scores) > 0.7` (`specMassThreshold` is that description verbatim);
and the escalation is one-shot: the result is always `0.6 * max` or
`0.7 * max`. -/
theorem c1_mass_selection_threshold (scores : List ℚ) (h : scores ≠ []) :
    SearchService.calculateMassSelectionThreshold scores =
      specMassThreshold scores ∧
    (SearchService.calculateMassSelectionThreshold scores =
        (sortDesc (fun s : ℚ => s) scores).headD 0 * 0.6 ∨
      SearchService.calculateMassSelectionThreshold scores =
        (sortDesc (fun s : ℚ => s) scores).headD 0 * 0.7) := by
  refine ⟨?_, massThreshold_eq_or scores h⟩
  have hne : scores.isEmpty = false := by
    simpa [List.isEmpty_iff] using h
  by_cases h1 : (sortDesc (fun s : ℚ => s) scores).length = 1
  · obtain ⟨x, hx⟩ := List.length_eq_one.mp h1
    have hcalc : SearchService.calculateMassSelectionThreshold scores = x * 0.6 := by
      simp only [SearchService.calculateMassSelectionThreshold, hne,
        Bool.false_eq_true, if_false]
      rw [if_pos h1, hx]
      simp
    have hspec : specMassThreshold scores = x * 0.6 := by
      simp only [specMassThreshold, hx]
      have h07 : ¬ ((0.7 : ℚ) < 0) := by norm_num
      by_cases hpx : x < x * 0.6
      · simp [List.findIdx?, hpx, h07]
      · simp [List.findIdx?, hpx]
    rw [hcalc, hspec]
  · simp only [SearchService.calculateMassSelectionThreshold, specMassThreshold,
      hne, Bool.false_eq_true, if_false]
    rw [if_neg h1]

/-- Witness for C1 at the concrete score list `[10, 9, 1]`. -/
theorem c1_mass_selection_threshold_witness :
    SearchService.calculateMassSelectionThreshold [(10 : ℚ), 9, 1] =
      specMassThreshold [(10 : ℚ), 9, 1] :=
  (c1_mass_selection_threshold [(10 : ℚ), 9, 1] (by decide)).1

/-- C7 counterexample: `_apply_mass_selection` on the non-empty ranked
list with the single (negative) score `-1` returns the empty list, not at
least one item: the threshold is `-1 * 0.6 = -0.6` and `-1 < -0.6`. -/
theorem c7_counterexample :
    ([(-1 : ℚ)] ≠ []) ∧
    SearchService.applyMassSelection (fun s : ℚ => s) [(-1 : ℚ)] = [] := by
  refine ⟨by decide, ?_⟩
  have hth : SearchService.calculateMassSelectionThreshold [(-1 : ℚ)] =
      -1 * 0.6 := by
    simp [SearchService.calculateMassSelectionThreshold, sortDesc_singleton]
  have hneg : ¬ ((-1 : ℚ) * 0.6 ≤ -1) := by norm_num
  simp [SearchService.applyMassSelection, hth, hneg]
  norm_num

/-- C7 (amended): `_apply_mass_selection` returns `[]` on `[]`; on a
non-empty list of *non-negative* scores (as every ranker in this
repository produces) it returns at least one item, and every returned
item's score is at least the dynamic threshold, which is `max * 0.6` or
`max * 0.7` (boundary inclusive). -/
theorem c7_mass_selection_bounds {β : Type} (score : β → ℚ) :
    SearchService.applyMassSelection score ([] : List β) = [] ∧
    ∀ results : List β, results ≠ [] → (∀ r ∈ results, 0 ≤ score r) →
      SearchService.applyMassSelection score results ≠ [] ∧
      ∀ r ∈ SearchService.applyMassSelection score results,
        SearchService.calculateMassSelectionThreshold (results.map score) ≤
          score r ∧
        (SearchService.calculateMassSelectionThreshold (results.map score) =
            (sortDesc (fun s : ℚ => s) (results.map score)).headD 0 * 0.6 ∨
          SearchService.calculateMassSelectionThreshold (results.map score) =
            (sortDesc (fun s : ℚ => s) (results.map score)).headD 0 * 0.7) := by
  constructor
  · rfl
  · intro results hne hnn
    have hmapne : results.map score ≠ [] := by simpa using hne
    have hnn' : ∀ s ∈ results.map score, 0 ≤ s := by
      intro s hs
      obtain ⟨r, hr, rfl⟩ := List.mem_map.mp hs
      exact hnn r hr
    have hle := massThreshold_le_headD _ hmapne hnn'
    have hm := sortDesc_headD_mem (fun s : ℚ => s) hmapne 0
    obtain ⟨r₀, hr₀, hr₀eq⟩ := List.mem_map.mp hm
    have hEmpty : results.isEmpty = false := by
      simpa [List.isEmpty_iff] using hne
    have happ : SearchService.applyMassSelection score results =
        results.filter (fun r => decide
          (SearchService.calculateMassSelectionThreshold (results.map score) ≤
            score r)) := by
      simp only [SearchService.applyMassSelection, hEmpty,
        Bool.false_eq_true, if_false]
    constructor
    · apply List.ne_nil_of_mem (a := r₀)
      rw [happ]
      exact List.mem_filter.mpr ⟨hr₀, decide_eq_true (by rw [hr₀eq]; exact hle)⟩
    · intro r hr
      rw [happ] at hr
      have := (List.mem_filter.mp hr).2
      exact ⟨of_decide_eq_true this, massThreshold_eq_or _ hmapne⟩

/-- Witness for C7 (amended) at the concrete list `[2, 1]`. -/
theorem c7_mass_selection_bounds_witness :
    SearchService.applyMassSelection (fun s : ℚ => s) [2, 1] ≠ [] :=
  ((c7_mass_selection_bounds (fun s : ℚ => s)).2 [2, 1] (by decide)
    (fun r hr => by
      simp only [List.mem_cons, List.not_mem_nil, or_false] at hr
      rcases hr with rfl | rfl <;> norm_num)).1

/-- `_calculate_tf` is non-negative. -/
theorem calculateTf_nonneg (term : Token) (document : String) :
    0 ≤ SearchService.calculateTf term document := by
  unfold SearchService.calculateTf
  dsimp only
  split
  · exact le_refl 0
  · positivity

/-- `_calculate_idf` is non-negative: when some document contains the
term, `containing_docs ≤ len(documents)` makes the log argument ≥ 1. -/
theorem calculateIdf_nonneg (term : Token) (documents : List String) :
    0 ≤ SearchService.calculateIdf term documents := by
  unfold SearchService.calculateIdf
  dsimp only
  split
  · exact le_refl 0
  · next hc =>
    apply Real.log_nonneg
    have hle : (documents.countP (fun doc =>
        decide (term ∈ SearchService.tokenize doc))) ≤ documents.length :=
      List.countP_le_length _
    have hpos : 0 < (documents.countP (fun doc =>
        decide (term ∈ SearchService.tokenize doc))) := Nat.pos_of_ne_zero hc
    rw [le_div_iff (by exact_mod_cast hpos), one_mul]
    exact_mod_cast hle

/-- C3 counterexample: `FixedSearchService._calculate_bm25_score` is
negative on a corpus of one document: with a single matching term,
`idf = log((1 - 1 + 0.5) / (1 + 0.5)) = log(1/3) < 0` and the
`tf_component` factor equals 1, so the score is `log(1/3) < 0`. -/
theorem c3_counterexample :
    FixedSearchService.calculateBm25Score [['a']] [['a']] 1 1 1.2 0.75 < 0 := by
  have h : FixedSearchService.calculateBm25Score [['a']] [['a']] 1 1 1.2 0.75 =
      Real.log (1 / 3) := by
    simp only [FixedSearchService.calculateBm25Score]
    norm_num
  rw [h]
  exact Real.log_neg (by norm_num) (by norm_num)

/-- C3 (amended): the snippet scorer `bm25_similarity` is non-negative on
all inputs (it ends in `max(score, 0.0)`); the search-service
`_calculate_bm25_score` is non-negative on every input on which the
Python computes (non-empty corpus with a positive total token count); the
fixed-service `_calculate_bm25_score` is non-negative only once
`doc_count ≥ 2` (its simplified `df = 1` idf is negative below that). -/
theorem c3_bm25_nonneg :
    (∀ (query document : String) (k1 b : ℝ)
        (corpus_stats : Option AiAgent.CorpusStats),
        0 ≤ AiAgent.bm25_similarity query document k1 b corpus_stats) ∧
    (∀ (query_terms : List Token) (document : String) (documents : List String),
        documents ≠ [] →
        0 < (documents.map (fun doc => (SearchService.tokenize doc).length)).sum →
        0 ≤ SearchService.calculateBm25Score query_terms document documents 1.2 0.75) ∧
    (∀ (query_terms doc_terms : List Token) (doc_count : ℕ) (avg_doc_length : ℝ),
        2 ≤ doc_count → 0 < avg_doc_length →
        0 ≤ FixedSearchService.calculateBm25Score query_terms doc_terms doc_count
          avg_doc_length 1.2 0.75) := by
  refine ⟨?_, ?_, ?_⟩
  · intro query document k1 b corpus_stats
    unfold AiAgent.bm25_similarity
    dsimp only
    split
    · exact le_refl 0
    · exact le_trans (by norm_num) (le_max_right _ _)
  · intro query_terms document documents hdocs hsum
    unfold SearchService.calculateBm25Score
    dsimp only
    split
    · exact le_refl 0
    · apply List.sum_nonneg
      intro x hx
      obtain ⟨term, _, rfl⟩ := List.mem_map.mp hx
      have havg : 0 < ((documents.map
          (fun doc => (SearchService.tokenize doc).length)).sum : ℝ) /
          (documents.length : ℝ) := by
        apply div_pos (by exact_mod_cast hsum)
        have : documents.length ≠ 0 := fun hz => hdocs (List.eq_nil_of_length_eq_zero hz)
        exact_mod_cast Nat.pos_of_ne_zero this
      apply mul_nonneg (calculateIdf_nonneg term documents)
      apply div_nonneg
      · exact mul_nonneg (calculateTf_nonneg term document) (by norm_num)
      · have h1 : 0 ≤ SearchService.calculateTf term document :=
          calculateTf_nonneg term document
        have h2 : (0 : ℝ) ≤ ((SearchService.tokenize document).length : ℝ) /
            (((documents.map (fun doc => (SearchService.tokenize doc).length)).sum : ℝ) /
              (documents.length : ℝ)) :=
          div_nonneg (by positivity) (le_of_lt havg)
        nlinarith
  · intro query_terms doc_terms doc_count avg_doc_length hdc havg
    unfold FixedSearchService.calculateBm25Score
    dsimp only
    split
    · exact le_refl 0
    · apply List.sum_nonneg
      intro x hx
      obtain ⟨term, _, rfl⟩ := List.mem_map.mp hx
      split
      · apply mul_nonneg
        · apply Real.log_nonneg
          have h2 : (2 : ℝ) ≤ (doc_count : ℝ) := by exact_mod_cast hdc
          rw [le_div_iff (by norm_num)]
          linarith
        · apply div_nonneg
          · positivity
          · have h3 : (0 : ℝ) ≤ ((doc_terms.length : ℝ)) / avg_doc_length :=
              div_nonneg (by positivity) (le_of_lt havg)
            have h4 : (0 : ℝ) ≤ ((doc_terms.count term : ℕ) : ℝ) := by positivity
            nlinarith
      · exact le_refl 0

/-- Witness for C3 (amended) at concrete inputs. -/
theorem c3_bm25_nonneg_witness :
    0 ≤ AiAgent.bm25_similarity "alpha" "alpha beta" 1.2 0.75 none ∧
    0 ≤ SearchService.calculateBm25Score [['a', 'b']] "ab cd" ["ab cd"] 1.2 0.75 ∧
    0 ≤ FixedSearchService.calculateBm25Score [['a']] [['a']] 2 1 1.2 0.75 :=
  ⟨c3_bm25_nonneg.1 "alpha" "alpha beta" 1.2 0.75 none,
    c3_bm25_nonneg.2.1 [['a', 'b']] "ab cd" ["ab cd"] (by decide) (by decide),
    c3_bm25_nonneg.2.2 [['a']] [['a']] 2 1 (by norm_num) (by norm_num)⟩

/-- C2: on non-empty tokenizations, with corpus statistics whose document
frequencies do not exceed the corpus size and a positive average document
length, `bm25_similarity(query, document, corpus_stats=stats)` computes
exactly the specification's formula: for each unique query term present in
the document, `tf*(k1+1)/(tf + k1*(1 - b + b*(doc_len/avg_doc_len)))`
times `idf = ln((total_items+1)/(df+1)) + 1.0` with `df` defaulting to 1;
the sum divided by the number of unique query terms and multiplied by the
coverage bonus `(0.5 + 0.5*coverage)`. -/
theorem c2_bm25_formula (query document : String) (s : AiAgent.CorpusStats)
    (hq : AiAgent.aiTokens query ≠ []) (hd : AiAgent.aiTokens document ≠ [])
    (havg : 0 < s.avg_doc_len)
    (hdf : ∀ t : Token, ((s.doc_freq t).getD 1) ≤ s.total_docs) :
    AiAgent.bm25_similarity query document 1.2 0.75 (some s) =
      AiAgent.specBm25 query document s := by
  have hor : ¬ (AiAgent.aiTokens query = [] ∨ AiAgent.aiTokens document = []) := by
    rintro (h | h)
    · exact hq h
    · exact hd h
  have h00 : (0.0 : ℝ) = 0 := by norm_num
  unfold AiAgent.bm25_similarity AiAgent.specBm25
  dsimp only
  rw [if_neg hor, h00]
  set M := (AiAgent.aiTokens query).dedup.filter
    (fun t => decide (t ∈ AiAgent.aiTokens document)) with hM
  by_cases hm : 0 < M.length
  · rw [if_pos hm]
    refine (max_eq_left ?_).trans ?_
    · refine mul_nonneg (div_nonneg (List.sum_nonneg ?_) (by positivity))
        (by positivity)
      intro x hx
      obtain ⟨term, _, rfl⟩ := List.mem_map.mp hx
      apply mul_nonneg
      · have hdfr : ((((s.doc_freq term).getD 1 : ℕ)) : ℝ) ≤ (s.total_docs : ℝ) := by
          exact_mod_cast hdf term
        have hlog : 0 ≤ Real.log (((s.total_docs : ℝ) + 1) /
            (((((s.doc_freq term).getD 1 : ℕ)) : ℝ) + 1)) := by
          apply Real.log_nonneg
          rw [le_div_iff₀ (by positivity), one_mul]
          linarith
        linarith
      · apply div_nonneg
        · positivity
        · have h3 : (0 : ℝ) ≤ ((AiAgent.aiTokens document).length : ℝ) /
              s.avg_doc_len := div_nonneg (by positivity) (le_of_lt havg)
          have h4 : (0 : ℝ) ≤
              (((AiAgent.aiTokens document).count term : ℕ) : ℝ) := by positivity
          nlinarith
    · rfl
  · rw [if_neg hm]
    have hM0 : M = [] := List.length_eq_zero.mp (Nat.eq_zero_of_not_pos hm)
    rw [hM0]
    simp

/-- Witness for C2 at a concrete query, document and statistics record. -/
theorem c2_bm25_formula_witness :
    AiAgent.bm25_similarity "alpha beta" "alpha" 1.2 0.75
        (some ⟨2, 3, fun _ => some 1⟩) =
      AiAgent.specBm25 "alpha beta" "alpha" ⟨2, 3, fun _ => some 1⟩ :=
  c2_bm25_formula "alpha beta" "alpha" ⟨2, 3, fun _ => some 1⟩
    (by decide) (by decide) (by norm_num) (fun t => by norm_num)

/-- Every entry of `topThree` carries a (snippet, score) pair of the
scored list it was built from. -/
theorem topThree_mem_scores (scores : List (AiAgent.Snippet × ℝ))
    (t : AiAgent.TopSnippet) (ht : t ∈ AiAgent.topThree scores) :
    (t.snippet, t.score) ∈ scores := by
  unfold AiAgent.topThree at ht
  obtain ⟨i, h, heq⟩ := List.exists_of_mem_mapIdx ht
  have hmem : ((sortDesc Prod.snd scores).take 3)[i] ∈
      (sortDesc Prod.snd scores).take 3 := List.getElem_mem h
  have hmem2 : ((sortDesc Prod.snd scores).take 3)[i] ∈ scores :=
    (mem_sortDesc Prod.snd).mp (List.take_subset 3 _ hmem)
  rw [← heq]
  dsimp only
  rw [Prod.mk.eta]
  exact hmem2

/-- With embedding retrieval disabled, `pick_most_related` on a non-empty
snippet list is its lexical branch. -/
theorem pick_most_related_no_embedding (embedQ : String → Option (List ℝ))
    (user_query : String) (snippets : List AiAgent.Snippet) (use_bm25 : Bool)
    (hs : ¬ snippets.isEmpty) :
    AiAgent.pick_most_related embedQ false user_query snippets use_bm25 =
      AiAgent.lexicalTop user_query snippets use_bm25 := by
  unfold AiAgent.pick_most_related
  rw [if_neg hs]
  rfl

/-- C6 (amended): in lexical-only ranking, the fused score of every
returned snippet is `bm25(name+description) * 1.5 + bm25(sql)` in the BM25
branch, but `max(jaccard(name+description) * 1.5, jaccard(sql))` — a
maximum, not a weighted sum — in the Jaccard fallback branch. -/
theorem c6_lexical_fusion (embedQ : String → Option (List ℝ))
    (user_query : String) (snippets : List AiAgent.Snippet) (use_bm25 : Bool) :
    ∀ t ∈ AiAgent.pick_most_related embedQ false user_query snippets use_bm25,
      t.score = (if use_bm25 then
          AiAgent.bm25_similarity user_query (AiAgent.combinedText t.snippet)
              1.2 0.75 (some (AiAgent.snippetCorpusStats snippets)) * 1.5 +
            AiAgent.bm25_similarity user_query t.snippet.sql
              1.2 0.75 (some (AiAgent.snippetCorpusStats snippets))
        else
          max (AiAgent.naive_similarity user_query
              (AiAgent.combinedText t.snippet) * 1.5)
            (AiAgent.naive_similarity user_query t.snippet.sql)) := by
  intro t ht
  by_cases hs : snippets.isEmpty
  · unfold AiAgent.pick_most_related at ht
    rw [if_pos hs] at ht
    simp at ht
  · rw [pick_most_related_no_embedding embedQ user_query snippets use_bm25 hs] at ht
    unfold AiAgent.lexicalTop at ht
    cases use_bm25 with
    | false =>
      rw [if_neg (by simp)] at ht
      have hmem := topThree_mem_scores _ t ht
      unfold AiAgent.jaccardSnippetScores at hmem
      obtain ⟨s, _, heq⟩ := List.mem_map.mp hmem
      have h1 : s = t.snippet := congrArg Prod.fst heq
      have h2 := congrArg Prod.snd heq
      dsimp at h2
      rw [if_neg (by simp)]
      rw [← h2, h1]
    | true =>
      rw [if_pos rfl] at ht
      have hmem := topThree_mem_scores _ t ht
      unfold AiAgent.bm25SnippetScores at hmem
      obtain ⟨s, _, heq⟩ := List.mem_map.mp hmem
      have h1 : s = t.snippet := congrArg Prod.fst heq
      have h2 := congrArg Prod.snd heq
      dsimp at h2
      rw [if_pos rfl]
      rw [← h2, h1]

/-- The two Jaccard component scores of the concrete counterexample
snippet `{name: "alpha", description: "", sql: "beta"}` against the query
`"alpha beta"` are both `1/2`. -/
theorem naive_similarity_half :
    AiAgent.naive_similarity "alpha beta"
        (AiAgent.combinedText ⟨"alpha", "", "beta", none⟩) = 1 / 2 ∧
    AiAgent.naive_similarity "alpha beta" "beta" = 1 / 2 := by
  constructor
  · unfold AiAgent.naive_similarity
    rw [if_neg (by decide)]
    rw [show ((AiAgent.aiTokens "alpha beta").dedup.filter (fun t =>
        decide (t ∈ (AiAgent.aiTokens (AiAgent.combinedText
          ⟨"alpha", "", "beta", none⟩)).dedup))).length = 1 from by decide]
    rw [show (((AiAgent.aiTokens "alpha beta").dedup ++
        (AiAgent.aiTokens (AiAgent.combinedText
          ⟨"alpha", "", "beta", none⟩)).dedup).dedup).length = 2 from by decide]
    norm_num
  · unfold AiAgent.naive_similarity
    rw [if_neg (by decide)]
    rw [show ((AiAgent.aiTokens "alpha beta").dedup.filter (fun t =>
        decide (t ∈ (AiAgent.aiTokens "beta").dedup))).length = 1 from by decide]
    rw [show (((AiAgent.aiTokens "alpha beta").dedup ++
        (AiAgent.aiTokens "beta").dedup).dedup).length = 2 from by decide]
    norm_num

/-- The lexical Jaccard ranking of that one-snippet corpus assigns the
max-combined score `3/4`. -/
theorem pickJaccardSingleton :
    AiAgent.pick_most_related (fun _ => none) false "alpha beta"
        [⟨"alpha", "", "beta", none⟩] false =
      [⟨⟨"alpha", "", "beta", none⟩, 3 / 4, 1⟩] := by
  rw [pick_most_related_no_embedding _ _ _ _ (by decide)]
  unfold AiAgent.lexicalTop
  rw [if_neg (by simp)]
  unfold AiAgent.jaccardSnippetScores
  obtain ⟨h1, h2⟩ := naive_similarity_half
  simp only [List.map_cons, List.map_nil, h1, h2]
  have hmax : max ((1 : ℝ) / 2 * 1.5) (1 / 2) = 3 / 4 := by
    rw [max_eq_left (by norm_num)]
    norm_num
  rw [hmax]
  unfold AiAgent.topThree
  rw [sortDesc_singleton]
  rfl

/-- C6 counterexample: for the snippet `{name: "alpha", description: "",
sql: "beta"}` and query `"alpha beta"`, the Jaccard fallback assigns the
fused score `max(0.5 * 1.5, 0.5) = 3/4`, whereas the claimed formula
`name * 1.5 + sql * 1.0` gives `0.5 * 1.5 + 0.5 = 5/4 ≠ 3/4`. -/
theorem c6_counterexample :
    AiAgent.pick_most_related (fun _ => none) false "alpha beta"
        [⟨"alpha", "", "beta", none⟩] false =
      [⟨⟨"alpha", "", "beta", none⟩, 3 / 4, 1⟩] ∧
    ((3 : ℝ) / 4) ≠
      AiAgent.naive_similarity "alpha beta"
          (AiAgent.combinedText ⟨"alpha", "", "beta", none⟩) * 1.5 +
        AiAgent.naive_similarity "alpha beta" "beta" * 1.0 := by
  obtain ⟨h1, h2⟩ := naive_similarity_half
  refine ⟨pickJaccardSingleton, ?_⟩
  rw [h1, h2]
  norm_num

/-- Witness for C6 (amended) at the concrete one-snippet corpus. -/
theorem c6_lexical_fusion_witness :
    ∃ t ∈ AiAgent.pick_most_related (fun _ => none) false "alpha beta"
        [⟨"alpha", "", "beta", none⟩] false,
      t.score = max (AiAgent.naive_similarity "alpha beta"
          (AiAgent.combinedText t.snippet) * 1.5)
        (AiAgent.naive_similarity "alpha beta" t.snippet.sql) := by
  have hmem : (⟨⟨"alpha", "", "beta", none⟩, 3 / 4, 1⟩ : AiAgent.TopSnippet) ∈
      AiAgent.pick_most_related (fun _ => none) false "alpha beta"
        [⟨"alpha", "", "beta", none⟩] false := by
    rw [pickJaccardSingleton]
    simp
  refine ⟨_, hmem, ?_⟩
  simpa using c6_lexical_fusion (fun _ => none) "alpha beta"
    [⟨"alpha", "", "beta", none⟩] false _ hmem

/-- `topThree` returns `min 3 n` entries. -/
theorem topThree_length (scores : List (AiAgent.Snippet × ℝ)) :
    (AiAgent.topThree scores).length = min 3 scores.length := by
  unfold AiAgent.topThree
  rw [List.length_mapIdx, List.length_take, sortDesc_length]

/-- `topThree` ranks are 1-based positions. -/
theorem topThree_rank (scores : List (AiAgent.Snippet × ℝ)) :
    ∀ (i : ℕ) (h : i < (AiAgent.topThree scores).length),
      ((AiAgent.topThree scores).get ⟨i, h⟩).rank = i + 1 := by
  intro i h
  unfold AiAgent.topThree at h ⊢
  simp only [List.get_eq_getElem, List.getElem_mapIdx]

/-- `topThree` scores are weakly descending in rank order. -/
theorem topThree_sorted (scores : List (AiAgent.Snippet × ℝ)) :
    ∀ (i j : ℕ) (hi : i < (AiAgent.topThree scores).length)
      (hj : j < (AiAgent.topThree scores).length), i ≤ j →
      ((AiAgent.topThree scores).get ⟨j, hj⟩).score ≤
        ((AiAgent.topThree scores).get ⟨i, hi⟩).score := by
  intro i j hi hj hij
  rcases lt_or_eq_of_le hij with hlt | heq
  · unfold AiAgent.topThree at hi hj ⊢
    have h3 : ((sortDesc Prod.snd scores).take 3).Sorted (keyGE Prod.snd) :=
      List.Pairwise.sublist (List.take_sublist 3 _)
        (sortDesc_sorted Prod.snd scores)
    have hi' : i < ((sortDesc Prod.snd scores).take 3).length := by
      rw [List.length_mapIdx] at hi; exact hi
    have hj' : j < ((sortDesc Prod.snd scores).take 3).length := by
      rw [List.length_mapIdx] at hj; exact hj
    have hrel := @List.Sorted.rel_get_of_lt _ _ _ h3 ⟨i, hi'⟩ ⟨j, hj'⟩
      (Fin.mk_lt_mk.mpr hlt)
    simp only [List.get_eq_getElem, List.getElem_mapIdx]
    simpa [keyGE, List.get_eq_getElem] using hrel
  · subst heq
    exact le_refl _

/-- The entries of `topThree`, projected back to (snippet, score) pairs,
are exactly the first three elements of the scored input sorted by score
descending. -/
theorem topThree_map_pairs (scores : List (AiAgent.Snippet × ℝ)) :
    (AiAgent.topThree scores).map (fun t => (t.snippet, t.score)) =
      (sortDesc Prod.snd scores).take 3 := by
  unfold AiAgent.topThree
  apply List.ext_getElem
  · simp [List.length_mapIdx]
  · intro i h1 h2
    simp [List.getElem_mapIdx]

/-- Each pair of `bm25SnippetScores` is a corpus snippet together with its
fused BM25 score `name_score * 1.5 + sql_score`. -/
theorem bm25SnippetScores_mem (user_query : String)
    (snippets : List AiAgent.Snippet) (p : AiAgent.Snippet × ℝ)
    (hp : p ∈ AiAgent.bm25SnippetScores user_query snippets) :
    p.1 ∈ snippets ∧ p.2 =
      AiAgent.bm25_similarity user_query (AiAgent.combinedText p.1) 1.2 0.75
          (some (AiAgent.snippetCorpusStats snippets)) * 1.5 +
        AiAgent.bm25_similarity user_query p.1.sql 1.2 0.75
          (some (AiAgent.snippetCorpusStats snippets)) := by
  unfold AiAgent.bm25SnippetScores at hp
  simp only [List.mem_map] at hp
  obtain ⟨s, hs, rfl⟩ := hp
  exact ⟨hs, rfl⟩

/-- Each pair of `jaccardSnippetScores` is a corpus snippet together with
its fused Jaccard score `max(name_sim * 1.5, sql_sim)`. -/
theorem jaccardSnippetScores_mem (user_query : String)
    (snippets : List AiAgent.Snippet) (p : AiAgent.Snippet × ℝ)
    (hp : p ∈ AiAgent.jaccardSnippetScores user_query snippets) :
    p.1 ∈ snippets ∧ p.2 =
      max (AiAgent.naive_similarity user_query (AiAgent.combinedText p.1) * 1.5)
        (AiAgent.naive_similarity user_query p.1.sql) := by
  unfold AiAgent.jaccardSnippetScores at hp
  simp only [List.mem_map] at hp
  obtain ⟨s, hs, rfl⟩ := hp
  exact ⟨hs, rfl⟩

/-- C9 (amended): with embedding retrieval disabled (the lexical SQL-example
configuration), `pick_most_related` returns the top `min(3, n)` ranked
snippets, with no mass-selection step: its (snippet, score) pairs are the
first `min(3, n)` elements of the full scored candidate list (every snippet
scored by the configured scorer) sorted by score descending, so no
higher-scoring candidate is excluded; each entry carries a 1-based rank and
a `score` field equal to the configured fused lexical score of its own
snippet (BM25: `name * 1.5 + sql`; Jaccard: `max(name * 1.5, sql)`), and the
entries appear in weakly descending score order. -/
theorem c9_top3_structure (embedQ : String → Option (List ℝ))
    (user_query : String) (snippets : List AiAgent.Snippet) (use_bm25 : Bool) :
    (AiAgent.pick_most_related embedQ false user_query snippets use_bm25).length =
      min 3 snippets.length ∧
    (∀ (i : ℕ) (h : i < (AiAgent.pick_most_related embedQ false user_query
        snippets use_bm25).length),
      ((AiAgent.pick_most_related embedQ false user_query snippets
        use_bm25).get ⟨i, h⟩).rank = i + 1) ∧
    (∀ (i j : ℕ) (hi : i < (AiAgent.pick_most_related embedQ false user_query
        snippets use_bm25).length)
      (hj : j < (AiAgent.pick_most_related embedQ false user_query snippets
        use_bm25).length), i ≤ j →
      ((AiAgent.pick_most_related embedQ false user_query snippets
        use_bm25).get ⟨j, hj⟩).score ≤
        ((AiAgent.pick_most_related embedQ false user_query snippets
          use_bm25).get ⟨i, hi⟩).score) ∧
    (∃ l : List (AiAgent.Snippet × ℝ),
      l.Perm (if use_bm25 then AiAgent.bm25SnippetScores user_query snippets
        else AiAgent.jaccardSnippetScores user_query snippets) ∧
      l.Sorted (keyGE Prod.snd) ∧
      (AiAgent.pick_most_related embedQ false user_query snippets
        use_bm25).map (fun t => (t.snippet, t.score)) = l.take 3) ∧
    (∀ t ∈ AiAgent.pick_most_related embedQ false user_query snippets use_bm25,
      t.snippet ∈ snippets ∧ t.score =
        if use_bm25 then
          AiAgent.bm25_similarity user_query (AiAgent.combinedText t.snippet)
              1.2 0.75 (some (AiAgent.snippetCorpusStats snippets)) * 1.5 +
            AiAgent.bm25_similarity user_query t.snippet.sql 1.2 0.75
              (some (AiAgent.snippetCorpusStats snippets))
        else
          max (AiAgent.naive_similarity user_query
              (AiAgent.combinedText t.snippet) * 1.5)
            (AiAgent.naive_similarity user_query t.snippet.sql)) := by
  by_cases hs : snippets.isEmpty
  · have hP : AiAgent.pick_most_related embedQ false user_query snippets
        use_bm25 = [] := by
      unfold AiAgent.pick_most_related
      rw [if_pos hs]
    have hlen : snippets = [] := by simpa [List.isEmpty_iff] using hs
    rw [hP, hlen]
    refine ⟨by simp, ?_, ?_, ?_, ?_⟩
    · intro i h
      exact absurd h (by simp)
    · intro i j hi hj
      exact absurd hi (by simp)
    · have hce : (if use_bm25 then AiAgent.bm25SnippetScores user_query []
          else AiAgent.jaccardSnippetScores user_query []) = [] := by
        cases use_bm25 <;>
          simp [AiAgent.bm25SnippetScores, AiAgent.jaccardSnippetScores]
      refine ⟨[], ?_, List.sorted_nil, by simp⟩
      rw [hce]
    · intro t ht
      exact absurd ht (List.not_mem_nil t)
  · rw [pick_most_related_no_embedding embedQ user_query snippets use_bm25 hs]
    unfold AiAgent.lexicalTop
    cases use_bm25 with
    | true =>
      rw [if_pos rfl]
      refine ⟨?_, topThree_rank _, topThree_sorted _, ?_, ?_⟩
      · rw [topThree_length]
        unfold AiAgent.bm25SnippetScores
        rw [List.length_map]
      · refine ⟨sortDesc Prod.snd (AiAgent.bm25SnippetScores user_query snippets),
          ?_, sortDesc_sorted _ _, topThree_map_pairs _⟩
        rw [if_pos rfl]
        exact sortDesc_perm _ _
      · intro t ht
        rw [if_pos rfl]
        exact bm25SnippetScores_mem user_query snippets _
          (topThree_mem_scores _ t ht)
    | false =>
      rw [if_neg (by simp)]
      refine ⟨?_, topThree_rank _, topThree_sorted _, ?_, ?_⟩
      · rw [topThree_length]
        unfold AiAgent.jaccardSnippetScores
        rw [List.length_map]
      · refine ⟨sortDesc Prod.snd (AiAgent.jaccardSnippetScores user_query snippets),
          ?_, sortDesc_sorted _ _, topThree_map_pairs _⟩
        rw [if_neg (by simp)]
        exact sortDesc_perm _ _
      · intro t ht
        rw [if_neg (by simp)]
        exact jaccardSnippetScores_mem user_query snippets _
          (topThree_mem_scores _ t ht)

/-- C9 counterexample: on a one-snippet list, `pick_most_related` returns
1 result, not exactly 3. -/
theorem c9_counterexample :
    (AiAgent.pick_most_related (fun _ => none) false "q"
        [⟨"n", "d", "s", none⟩] true).length = 1 ∧ (1 : ℕ) ≠ 3 := by
  refine ⟨?_, by decide⟩
  rw [pick_most_related_no_embedding _ _ _ _ (by decide)]
  unfold AiAgent.lexicalTop
  rw [if_pos rfl, topThree_length]
  unfold AiAgent.bm25SnippetScores
  rw [List.length_map]
  simp

/-- Witness for C9 (amended) at a concrete one-snippet corpus: the single
returned entry carries rank 1. -/
theorem c9_top3_structure_witness :
    ∃ h : 0 < (AiAgent.pick_most_related (fun _ => none) false "q"
        [⟨"n", "d", "s", none⟩] true).length,
      ((AiAgent.pick_most_related (fun _ => none) false "q"
        [⟨"n", "d", "s", none⟩] true).get ⟨0, h⟩).rank = 0 + 1 := by
  have h := c9_top3_structure (fun _ => none) "q" [⟨"n", "d", "s", none⟩] true
  have hlen : 0 < (AiAgent.pick_most_related (fun _ => none) false "q"
      [⟨"n", "d", "s", none⟩] true).length := by
    rw [h.1]
    norm_num
  exact ⟨hlen, h.2.1 0 hlen⟩

/-- An unknown `search_type` string sends `new_search` through its final
`else` branch, which is the same hybrid call the `smart_hybrid` branch
makes. -/
theorem newSearch_unknown_mode (embedQ : String → List ℝ) (enabled : Bool)
    (query : String) (store : SearchService.Store) (mode : String)
    (limit : ℕ) (kw vw th : ℝ)
    (h1 : mode ≠ "smart_hybrid") (h2 : mode ≠ "keyword")
    (h3 : mode ≠ "semantic") :
    SearchService.newSearch embedQ enabled query store mode limit kw vw th =
      SearchService.newSearch embedQ enabled query store "smart_hybrid"
        limit kw vw th := by
  simp only [SearchService.newSearch, h1, h2, h3, if_false, ite_false,
    eq_self_iff_true, if_true, ite_true]

/-- C8 counterexample: `new_search` with the invalid mode string
`"an_invalid_mode"` silently returns the same response as the valid
`"smart_hybrid"` call, and the fixed-service dispatch routes it to the
hybrid handler — no fail-fast error is raised anywhere. -/
theorem c8_counterexample :
    ("an_invalid_mode" : String) ≠ "smart_hybrid" ∧
    SearchService.newSearch (fun _ => []) false "q" [] "an_invalid_mode"
        10 0.4 0.6 0.1 =
      SearchService.newSearch (fun _ => []) false "q" [] "smart_hybrid"
        10 0.4 0.6 0.1 ∧
    FixedSearchService.smartSearchRoute "an_invalid_mode" =
      FixedSearchService.SmartRoute.hybrid := by
  refine ⟨by decide, ?_, by decide⟩
  exact newSearch_unknown_mode (fun _ => []) false "q" [] "an_invalid_mode"
    10 0.4 0.6 0.1 (by decide) (by decide) (by decide)

/-- C8 (amended): neither façade validates its mode string: every string
outside the recognised set is silently coerced to the hybrid path —
`new_search`'s response on an unknown mode equals its `smart_hybrid`
response, and `FixedSearchService.smart_search` routes unknown modes to
its hybrid handler.  No error is raised for invalid modes (nor are
weights or limits validated anywhere on these paths). -/
theorem c8_invalid_mode_coerced :
    (∀ (embedQ : String → List ℝ) (enabled : Bool) (query : String)
        (store : SearchService.Store) (mode : String) (limit : ℕ)
        (kw vw th : ℝ),
      mode ≠ "smart_hybrid" → mode ≠ "keyword" → mode ≠ "semantic" →
      SearchService.newSearch embedQ enabled query store mode limit kw vw th =
        SearchService.newSearch embedQ enabled query store "smart_hybrid"
          limit kw vw th) ∧
    (∀ mode : String, mode ≠ "hybrid" → mode ≠ "smart_hybrid" →
      mode ≠ "keyword" → mode ≠ "semantic" → mode ≠ "vector" →
      FixedSearchService.smartSearchRoute mode =
        FixedSearchService.SmartRoute.hybrid) := by
  constructor
  · intro embedQ enabled query store mode limit kw vw th h1 h2 h3
    exact newSearch_unknown_mode embedQ enabled query store mode limit
      kw vw th h1 h2 h3
  · intro mode h1 h2 h3 h4 h5
    unfold FixedSearchService.smartSearchRoute
    rw [if_neg (by rintro (h | h) <;> [exact h1 h; exact h2 h]),
      if_neg h3, if_neg (by rintro (h | h) <;> [exact h4 h; exact h5 h])]

/-- Witness for C8 (amended) at a concrete unknown mode string. -/
theorem c8_invalid_mode_coerced_witness :
    SearchService.newSearch (fun _ => []) true "revenue" [] "bogus_mode"
        5 0.4 0.6 0.1 =
      SearchService.newSearch (fun _ => []) true "revenue" [] "smart_hybrid"
        5 0.4 0.6 0.1 ∧
    FixedSearchService.smartSearchRoute "bogus_mode" =
      FixedSearchService.SmartRoute.hybrid :=
  ⟨c8_invalid_mode_coerced.1 (fun _ => []) true "revenue" [] "bogus_mode"
      5 0.4 0.6 0.1 (by decide) (by decide) (by decide),
    c8_invalid_mode_coerced.2 "bogus_mode" (by decide) (by decide) (by decide)
      (by decide) (by decide)⟩

/-- `lexicalTop` returns `min 3 n` entries. -/
theorem lexicalTop_length (user_query : String)
    (snippets : List AiAgent.Snippet) (use_bm25 : Bool) :
    (AiAgent.lexicalTop user_query snippets use_bm25).length =
      min 3 snippets.length := by
  unfold AiAgent.lexicalTop
  cases use_bm25 with
  | true =>
    rw [if_pos rfl, topThree_length]
    unfold AiAgent.bm25SnippetScores
    rw [List.length_map]
  | false =>
    rw [if_neg (by simp), topThree_length]
    unfold AiAgent.jaccardSnippetScores
    rw [List.length_map]

/-- `lexicalTop` of a non-empty snippet list is non-empty. -/
theorem lexicalTop_ne_nil (user_query : String)
    (snippets : List AiAgent.Snippet) (use_bm25 : Bool)
    (h : snippets ≠ []) :
    AiAgent.lexicalTop user_query snippets use_bm25 ≠ [] := by
  intro hnil
  have hlen := lexicalTop_length user_query snippets use_bm25
  rw [hnil] at hlen
  have hpos : 0 < snippets.length := List.length_pos.mpr h
  simp only [List.length_nil] at hlen
  omega

/-- `search_similar` over a store none of whose documents has an embedded
chunk returns no results. -/
theorem searchSimilar_no_chunks (embedQ : String → List ℝ) (enabled : Bool)
    (query : String) (store : SearchService.Store) (limit : ℕ)
    (threshold : ℝ) (ids : Option (List String))
    (h : ∀ d ∈ store, d.chunks = []) :
    SearchService.searchSimilar embedQ enabled query store limit threshold
      ids = [] := by
  unfold SearchService.searchSimilar
  cases enabled with
  | false => rfl
  | true =>
    simp only [Bool.not_true, Bool.false_eq_true, if_false]
    by_cases hq : embedQ query = []
    · rw [if_pos hq]
    · rw [if_neg hq]
      rw [List.eq_nil_iff_forall_not_mem]
      intro x hx
      have hx1 : x ∈ sortDesc SearchService.VecResult.similarity _ :=
        List.take_subset limit _ hx
      have hx2 := (mem_sortDesc SearchService.VecResult.similarity).mp hx1
      rw [List.mem_flatten] at hx2
      obtain ⟨l, hl, hxl⟩ := hx2
      obtain ⟨did, _, rfl⟩ := List.mem_map.mp hl
      revert hxl
      cases hfind : store.find? (fun d => d.id == did) with
      | none => simp
      | some doc_data =>
        have hmem : doc_data ∈ store := List.mem_of_find?_eq_some hfind
        intro hxl
        dsimp only at hxl
        rw [h doc_data hmem] at hxl
        simp at hxl

/-- `new_search` in semantic mode performs no lexical fallback: with no
embedded chunk in the store it returns an empty result set. -/
theorem newSearch_semantic_empty (embedQ : String → List ℝ) (enabled : Bool)
    (query : String) (store : SearchService.Store) (limit : ℕ)
    (kw vw th : ℝ) (h : ∀ d ∈ store, d.chunks = []) :
    (SearchService.newSearch embedQ enabled query store "semantic" limit
      kw vw th).results = [] ∧
    (SearchService.newSearch embedQ enabled query store "semantic" limit
      kw vw th).total_found = 0 := by
  have hss := searchSimilar_no_chunks embedQ enabled
    (SearchService.preprocessQuery query) store (limit * 2) 0.3 none h
  have h1 : ("semantic" : String) ≠ "smart_hybrid" := by decide
  have h2 : ("semantic" : String) ≠ "keyword" := by decide
  simp only [SearchService.newSearch, h1, h2, if_false, ite_false,
    eq_self_iff_true, if_true, ite_true, hss, List.map_nil]
  simp [SearchService.applyMassSelection]

/-- C5 counterexample: semantic-mode retrieval over a corpus of three
items, none with an embedding, returns an empty result set — it does not
fall back to lexical scoring. -/
theorem c5_counterexample :
    (SearchService.newSearch (fun _ => [1]) true "monthly revenue"
        [⟨"a", []⟩, ⟨"b", []⟩, ⟨"c", []⟩] "semantic" 10 0.4 0.6 0.1).results =
      [] :=
  (newSearch_semantic_empty (fun _ => [1]) true "monthly revenue"
    [⟨"a", []⟩, ⟨"b", []⟩, ⟨"c", []⟩] 10 0.4 0.6 0.1
    (by
      intro d hd
      simp only [List.mem_cons, List.not_mem_nil, or_false] at hd
      rcases hd with rfl | rfl | rfl <;> rfl)).1

/-- C5 (amended): in the snippet ranker `pick_most_related`, a failed
query embedding falls back to the configured lexical scorer, and a corpus
with no usable snippet embedding falls back to BM25 (forced), returning
non-empty results for a non-empty snippet list; but the `new_search`
façade's semantic mode performs no lexical fallback — with no embedded
chunk in the store it returns empty results with `total_found = 0`. -/
theorem c5_semantic_fallback :
    (∀ (embedQ : String → Option (List ℝ)) (user_query : String)
        (snippets : List AiAgent.Snippet) (use_bm25 : Bool),
      embedQ user_query = none → snippets ≠ [] →
      AiAgent.pick_most_related embedQ true user_query snippets use_bm25 =
        AiAgent.lexicalTop user_query snippets use_bm25 ∧
      AiAgent.pick_most_related embedQ true user_query snippets
        use_bm25 ≠ []) ∧
    (∀ (embedQ : String → Option (List ℝ)) (qe : List ℝ)
        (user_query : String) (snippets : List AiAgent.Snippet)
        (use_bm25 : Bool),
      embedQ user_query = some qe →
      (∀ s ∈ snippets, s.embedding = none ∨ s.embedding = some []) →
      snippets ≠ [] →
      AiAgent.pick_most_related embedQ true user_query snippets use_bm25 =
        AiAgent.lexicalTop user_query snippets true ∧
      AiAgent.pick_most_related embedQ true user_query snippets
        use_bm25 ≠ []) ∧
    (∀ (embedQ : String → List ℝ) (enabled : Bool) (query : String)
        (store : SearchService.Store) (limit : ℕ) (kw vw th : ℝ),
      (∀ d ∈ store, d.chunks = []) →
      (SearchService.newSearch embedQ enabled query store "semantic" limit
        kw vw th).results = [] ∧
      (SearchService.newSearch embedQ enabled query store "semantic" limit
        kw vw th).total_found = 0) := by
  refine ⟨?_, ?_, ?_⟩
  · intro embedQ user_query snippets use_bm25 hq hne
    have hs : ¬ snippets.isEmpty = true := by
      simpa [List.isEmpty_iff] using hne
    have heq : AiAgent.pick_most_related embedQ true user_query snippets
        use_bm25 = AiAgent.lexicalTop user_query snippets use_bm25 := by
      unfold AiAgent.pick_most_related
      rw [if_neg hs]
      simp only [if_true, hq]
    exact ⟨heq, heq ▸ lexicalTop_ne_nil user_query snippets use_bm25 hne⟩
  · intro embedQ qe user_query snippets use_bm25 hq hemb hne
    have hs : ¬ snippets.isEmpty = true := by
      simpa [List.isEmpty_iff] using hne
    have hfm : snippets.filterMap (fun s =>
        match s.embedding with
        | none => none
        | some e =>
          if e = [] then none
          else some (s, AiAgent.cosine_similarity qe e)) = [] := by
      rw [List.eq_nil_iff_forall_not_mem]
      intro x hx
      obtain ⟨s, hsmem, hfx⟩ := List.mem_filterMap.mp hx
      rcases hemb s hsmem with he | he <;> rw [he] at hfx <;> simp at hfx
    have heq : AiAgent.pick_most_related embedQ true user_query snippets
        use_bm25 = AiAgent.lexicalTop user_query snippets true := by
      unfold AiAgent.pick_most_related
      rw [if_neg hs]
      simp only [if_true, hq, hfm]
      rfl
    exact ⟨heq, heq ▸ lexicalTop_ne_nil user_query snippets true hne⟩
  · intro embedQ enabled query store limit kw vw th h
    exact newSearch_semantic_empty embedQ enabled query store limit kw vw th h

/-- Witness for C5 (amended) at concrete inputs. -/
theorem c5_semantic_fallback_witness :
    (AiAgent.pick_most_related (fun _ => some [1]) true "q"
        [⟨"n", "d", "s", none⟩] false =
      AiAgent.lexicalTop "q" [⟨"n", "d", "s", none⟩] true ∧
     AiAgent.pick_most_related (fun _ => some [1]) true "q"
        [⟨"n", "d", "s", none⟩] false ≠ []) ∧
    (SearchService.newSearch (fun _ => [1]) true "q" [⟨"a", []⟩]
        "semantic" 10 0.4 0.6 0.1).results = [] :=
  ⟨c5_semantic_fallback.2.1 (fun _ => some [1]) [1] "q"
      [⟨"n", "d", "s", none⟩] false rfl
      (by
        intro s hs
        simp only [List.mem_cons, List.not_mem_nil, or_false] at hs
        subst hs
        exact Or.inl rfl)
      (by simp),
    (c5_semantic_fallback.2.2 (fun _ => [1]) true "q" [⟨"a", []⟩]
      10 0.4 0.6 0.1
      (by
        intro d hd
        simp only [List.mem_cons, List.not_mem_nil, or_false] at hd
        subst hd
        rfl)).1⟩

/-- Whatever `combineScores` emits passed the strict threshold filter,
and its `score` equals its `hybrid_score`. -/
theorem combineScores_some_spec {keyword_results : List SearchService.KwResult}
    {vector_results : List SearchService.VecResult}
    {documents : List SearchService.Doc} {kw vw threshold : ℝ}
    {doc_id : String} {r : SearchService.HybridResult}
    (hf : SearchService.combineScores keyword_results vector_results documents
      kw vw threshold doc_id = some r) :
    threshold < r.hybrid_score ∧ r.score = r.hybrid_score := by
  unfold SearchService.combineScores at hf
  rcases hkw : keyword_results.reverse.find? (fun x => x.doc.id == doc_id) with _ | kr
  · simp only [hkw] at hf
    rcases hdoc : documents.find? (fun d => d.id == doc_id) with _ | doc
    · simp only [hdoc] at hf
      exact absurd hf (by simp)
    · simp only [hdoc] at hf
      rcases hvec : vector_results.reverse.find?
          (fun x => x.document_id == doc_id) with _ | vr
      · simp only [hvec] at hf
        split at hf
        · rename_i hcond
          obtain rfl := Option.some.inj hf
          exact ⟨hcond, rfl⟩
        · exact absurd hf (by simp)
      · simp only [hvec] at hf
        split at hf
        · rename_i hcond
          obtain rfl := Option.some.inj hf
          exact ⟨hcond, rfl⟩
        · exact absurd hf (by simp)
  · simp only [hkw] at hf
    rcases hvec : vector_results.reverse.find?
        (fun x => x.document_id == doc_id) with _ | vr
    · simp only [hvec] at hf
      split at hf
      · rename_i hcond
        obtain rfl := Option.some.inj hf
        exact ⟨hcond, rfl⟩
      · exact absurd hf (by simp)
    · simp only [hvec] at hf
      split at hf
      · rename_i hcond
        obtain rfl := Option.some.inj hf
        exact ⟨hcond, rfl⟩
      · exact absurd hf (by simp)

/-- C10: every result of `hybrid_search` has a fused `hybrid_score`
strictly greater than the `threshold` parameter — any item whose weighted
combined score is `≤ threshold` is omitted before the sort and the limit
cut — and the result's `score` field equals the `hybrid_score`. -/
theorem c10_hybrid_threshold (embedQ : String → List ℝ) (enabled : Bool)
    (query : String) (store : SearchService.Store)
    (documents : List SearchService.Doc) (limit : ℕ) (kw vw threshold : ℝ) :
    ∀ r ∈ SearchService.hybridSearch embedQ enabled query store documents
        limit kw vw threshold,
      threshold < r.hybrid_score ∧ r.score = r.hybrid_score := by
  intro r hr
  simp only [SearchService.hybridSearch] at hr
  have hr1 := List.take_subset limit _ hr
  have hr2 := (mem_sortDesc SearchService.HybridResult.hybrid_score).mp hr1
  obtain ⟨did, _, hf⟩ := List.mem_filterMap.mp hr2
  exact combineScores_some_spec hf

/-- Cosine of the one-dimensional unit vectors is 1. -/
theorem npCosine_one : SearchService.npCosineSimilarity [1] [1] = 1 := by
  unfold SearchService.npCosineSimilarity
  rw [if_neg (by simp)]
  simp [Real.sqrt_one]

/-- A query with no tokens produces no keyword results. -/
theorem keyword_qq_empty (documents : List SearchService.Doc) (limit : ℕ) :
    SearchService.keywordSearch "??" documents limit = [] := by
  have htok : SearchService.tokenize "??" = [] := by decide
  simp [SearchService.keywordSearch, htok]

/-- Concrete vector retrieval: one stored chunk with embedding `[1]` and a
query embedded as `[1]` yields one result of similarity 1. -/
theorem searchSimilar_eval :
    SearchService.searchSimilar (fun _ => [1]) true "??"
        [⟨"d1", [⟨0, "c", [1]⟩]⟩] 20 0.1 (some ["d1"]) =
      [⟨"d1", 0, "c", 1, 1⟩] := by
  unfold SearchService.searchSimilar
  simp only [Bool.not_true, Bool.false_eq_true, if_false]
  rw [if_neg (by simp)]
  simp [List.find?, npCosine_one, show (0.1 : ℝ) ≤ 1 by norm_num,
    sortDesc_singleton]

/-- Concrete hybrid retrieval: no keyword signal, one vector hit of
similarity 1, fused to `0 * 0.4 + 1 * 0.6 = 0.6 > 0.1`. -/
theorem hybridSearch_eval :
    SearchService.hybridSearch (fun _ => [1]) true "??"
        [⟨"d1", [⟨0, "c", [1]⟩]⟩] [⟨"d1", "doc text"⟩] 10 0.4 0.6 0.1 =
      [⟨⟨"d1", "doc text"⟩, 0, 1, 0.6, 0.6⟩] := by
  unfold SearchService.hybridSearch
  simp only [show ([⟨"d1", "doc text"⟩] : List SearchService.Doc).isEmpty =
    false from rfl, Bool.false_eq_true, if_false]
  rw [keyword_qq_empty]
  simp only [List.map_cons, List.map_nil]
  rw [searchSimilar_eval]
  simp [SearchService.combineScores, List.find?, sortDesc_singleton,
    show (0.1 : ℝ) < 0 * 0.4 + 1 * 0.6 by norm_num]
  have hcs : SearchService.combineScores ([] : List SearchService.KwResult)
      [⟨"d1", 0, "c", 1, 1⟩] [⟨"d1", "doc text"⟩] 0.4 0.6 0.1
      "d1" = some ⟨⟨"d1", "doc text"⟩, 0, 1, 0.6, 0.6⟩ := by
    unfold SearchService.combineScores
    norm_num [List.find?]
  simp [List.filterMap_cons, hcs, sortDesc_singleton]

/-- Witness for C10 at a concrete hybrid call with one result. -/
theorem c10_hybrid_threshold_witness :
    ∃ r ∈ SearchService.hybridSearch (fun _ => [1]) true "??"
        [⟨"d1", [⟨0, "c", [1]⟩]⟩] [⟨"d1", "doc text"⟩] 10 0.4 0.6 0.1,
      (0.1 : ℝ) < r.hybrid_score := by
  have hmem : (⟨⟨"d1", "doc text"⟩, 0, 1, 0.6, 0.6⟩ :
      SearchService.HybridResult) ∈
      SearchService.hybridSearch (fun _ => [1]) true "??"
        [⟨"d1", [⟨0, "c", [1]⟩]⟩] [⟨"d1", "doc text"⟩] 10 0.4 0.6 0.1 := by
    rw [hybridSearch_eval]
    simp
  exact ⟨_, hmem, (c10_hybrid_threshold (fun _ => [1]) true "??"
    [⟨"d1", [⟨0, "c", [1]⟩]⟩] [⟨"d1", "doc text"⟩] 10 0.4 0.6 0.1 _ hmem).1⟩

/-- The tokenizer's character preprocessing distributes over string
concatenation. -/
theorem tokenChars_append (a b : String) :
    SearchService.tokenChars (a ++ b) =
      SearchService.tokenChars a ++ SearchService.tokenChars b := by
  simp [SearchService.tokenChars, SearchService.normalizeThaiChars,
    String.toList, String.data_append, List.filter_append]

/-- Run extraction splits at a trailing non-class character of the left
part. -/
theorem runsBy_append_of_getLast? (p : Char → Bool) (l₁ l₂ : List Char)
    (c : Char) (h : l₁.getLast? = some c) (hc : p c = false) :
    runsBy p (l₁ ++ l₂) = runsBy p l₁ ++ runsBy p l₂ := by
  have hne : l₁ ≠ [] := by
    intro h0
    rw [h0] at h
    simp at h
  have hlast : l₁.getLast hne = c := by
    have hg := List.getLast?_eq_getLast l₁ hne
    rw [hg] at h
    exact Option.some.inj h
  exact runsBy_append_of_break p l₁ l₂ hne (by rw [hlast]; exact hc)

/-- The preprocessed characters of a mock document split into the
preprocessed lead-in (ending in a space) and the preprocessed query. -/
theorem tokenChars_mock (i : ℕ) (q : String) :
    SearchService.tokenChars ("Mock document " ++ toString i ++
        " content related to: " ++ q) =
      (SearchService.tokenChars "Mock document " ++
        SearchService.tokenChars (toString i) ++
        SearchService.tokenChars " content related to: ") ++
      SearchService.tokenChars q := by
  rw [tokenChars_append, tokenChars_append, tokenChars_append]

/-- The preprocessed mock lead-in ends in a space. -/
theorem mockLead_getLast? (i : ℕ) :
    (SearchService.tokenChars "Mock document " ++
      SearchService.tokenChars (toString i) ++
      SearchService.tokenChars " content related to: ").getLast? =
      some ' ' := by
  rw [List.getLast?_append]
  rw [show (SearchService.tokenChars " content related to: ").getLast? =
    some ' ' from by decide]
  rfl

/-- Run extraction over a mock document splits into its lead-in runs and
the query's runs, for any class that excludes the space character. -/
theorem runsBy_mock (p : Char → Bool) (hsp : p ' ' = false) (i : ℕ)
    (q : String) :
    runsBy p (SearchService.tokenChars ("Mock document " ++ toString i ++
        " content related to: " ++ q)) =
      runsBy p (SearchService.tokenChars "Mock document " ++
        SearchService.tokenChars (toString i) ++
        SearchService.tokenChars " content related to: ") ++
      runsBy p (SearchService.tokenChars q) := by
  rw [tokenChars_mock]
  exact runsBy_append_of_getLast? p _ _ ' ' (mockLead_getLast? i) hsp

/-- Every token of the query is a token of every mock document built from
it (the mock content embeds the query after a space). -/
theorem mem_tokenize_mock (q : String) (i : ℕ) (t : Token)
    (ht : t ∈ SearchService.tokenize q) :
    t ∈ SearchService.tokenize ("Mock document " ++ toString i ++
      " content related to: " ++ q) := by
  unfold SearchService.tokenize at ht ⊢
  by_cases hq : q.toList = []
  · rw [if_pos hq] at ht
    simp at ht
  · rw [if_neg hq] at ht
    have hmockeq : ("Mock document " ++ toString i ++
        " content related to: " ++ q).toList =
        "Mock document ".toList ++
          (toString i ++ (" content related to: " ++ q)).toList := by
      simp [String.toList, String.data_append]
    have hmockne : ("Mock document " ++ toString i ++
        " content related to: " ++ q).toList ≠ [] := by
      intro h0
      rw [hmockeq] at h0
      rcases List.append_eq_nil.mp h0 with ⟨h1, _⟩
      exact absurd h1 (by decide)
    rw [if_neg hmockne]
    dsimp only at ht ⊢
    rw [List.mem_dedup] at ht ⊢
    rw [runsBy_mock isThaiChar (by decide) i q,
      runsBy_mock isWordChar (by decide) i q]
    simp only [List.filter_append]
    rcases List.mem_append.mp ht with h12 | h3
    · rcases List.mem_append.mp h12 with h1 | h2
      · refine List.mem_append.mpr (Or.inl (List.mem_append.mpr (Or.inl ?_)))
        exact List.mem_append_right _ h1
      · refine List.mem_append.mpr (Or.inl (List.mem_append.mpr (Or.inr ?_)))
        exact List.mem_append_right _ h2
    · exact List.mem_append.mpr (Or.inr (List.mem_append_right _ h3))

/-- Every query token occurs in all five mock documents, so its document
count equals the corpus size. -/
theorem mock_contents_containing (q : String) (t : Token)
    (ht : t ∈ SearchService.tokenize q) :
    ((SearchService.mockDocuments q).map (fun d => d.content)).countP
        (fun doc => decide (t ∈ SearchService.tokenize doc)) =
      ((SearchService.mockDocuments q).map (fun d => d.content)).length := by
  rw [List.countP_eq_length]
  intro a ha
  obtain ⟨d, hd, rfl⟩ := List.mem_map.mp ha
  obtain ⟨i, _, rfl⟩ := List.mem_map.mp hd
  exact decide_eq_true (mem_tokenize_mock q i t ht)

/-- Against the five mock documents, every query term's inverse document
frequency is `log(5/5) = 0`. -/
theorem calculateIdf_mock (q : String) (t : Token)
    (ht : t ∈ SearchService.tokenize q) :
    SearchService.calculateIdf t
      ((SearchService.mockDocuments q).map (fun d => d.content)) = 0 := by
  have hcount := mock_contents_containing q t ht
  have hlen : ((SearchService.mockDocuments q).map
      (fun d => d.content)).length = 5 := by
    simp [SearchService.mockDocuments]
  unfold SearchService.calculateIdf
  dsimp only
  rw [hcount, hlen]
  rw [if_neg (by norm_num)]
  rw [show ((5 : ℕ) : ℝ) / ((5 : ℕ) : ℝ) = 1 by norm_num, Real.log_one]

/-- Against the mock corpus, every mock document's BM25 score for the
query that generated it is 0 (all idf factors vanish). -/
theorem calcBm25_mock (q : String) (c : String) :
    SearchService.calculateBm25Score (SearchService.tokenize q) c
      ((SearchService.mockDocuments q).map (fun d => d.content)) 1.2 0.75 =
      0 := by
  unfold SearchService.calculateBm25Score
  dsimp only
  split
  · rfl
  · apply List.sum_eq_zero
    intro x hx
    obtain ⟨term, hterm, rfl⟩ := List.mem_map.mp hx
    rw [calculateIdf_mock q term hterm, zero_mul]

/-- `keyword_search` over the five mock documents substituted for an
empty corpus returns no results, whatever the query: every query token
occurs in all five mock contents, so all idf values — and hence all BM25
scores — are 0, and only strictly positive scores are kept. -/
theorem keywordSearch_mock_empty (q : String) (limit : ℕ) :
    SearchService.keywordSearch q (SearchService.mockDocuments q) limit = [] := by
  unfold SearchService.keywordSearch
  dsimp only
  split
  · rfl
  · rw [List.eq_nil_iff_forall_not_mem]
    intro x hx
    have hx1 := List.take_subset limit _ hx
    have hx2 := (mem_sortDesc SearchService.KwResult.keyword_score).mp hx1
    obtain ⟨doc, hdoc, hf⟩ := List.mem_filterMap.mp hx2
    split at hf
    · exact absurd hf (by simp)
    · split at hf
      · rename_i hcond
        rw [calcBm25_mock q doc.content] at hcond
        exact absurd hcond (lt_irrefl 0)
      · exact absurd hf (by simp)

/-- `search_similar` with a failed query embedding returns no results. -/
theorem searchSimilar_embed_fail (embedQ : String → List ℝ) (enabled : Bool)
    (query : String) (store : SearchService.Store) (limit : ℕ)
    (threshold : ℝ) (ids : Option (List String)) (hq : embedQ query = []) :
    SearchService.searchSimilar embedQ enabled query store limit threshold
      ids = [] := by
  unfold SearchService.searchSimilar
  cases enabled with
  | false => rfl
  | true =>
    simp only [Bool.not_true, Bool.false_eq_true, if_false]
    rw [if_pos hq]

/-- `keyword_search` over an empty corpus returns no results. -/
theorem keywordSearch_nil_docs (query : String) (limit : ℕ) :
    SearchService.keywordSearch query [] limit = [] := by
  unfold SearchService.keywordSearch
  dsimp only
  split
  · rfl
  · simp [sortDesc, List.insertionSort]

/-- `hybrid_search` is empty when both of its signals are. -/
theorem hybridSearch_nil_of (embedQ : String → List ℝ) (enabled : Bool)
    (query : String) (store : SearchService.Store)
    (documents : List SearchService.Doc) (limit : ℕ) (kw vw th : ℝ)
    (hkw : SearchService.keywordSearch query
      (if documents.isEmpty then SearchService.mockDocuments query
        else documents) (limit * 2) = [])
    (hvec : SearchService.searchSimilar embedQ enabled query store
      (limit * 2) th
      (some ((if documents.isEmpty then SearchService.mockDocuments query
        else documents).map (fun d => d.id))) = []) :
    SearchService.hybridSearch embedQ enabled query store documents limit
      kw vw th = [] := by
  simp only [SearchService.hybridSearch, hkw, hvec]
  simp [sortDesc, List.insertionSort]

/-- `new_search` returns the empty response when the routed raw result
list is empty in every mode. -/
theorem newSearch_routed_empty (embedQ : String → List ℝ) (enabled : Bool)
    (query : String) (store : SearchService.Store) (mode : String)
    (limit : ℕ) (kw vw th : ℝ)
    (hhyb : SearchService.hybridSearch embedQ enabled
      (SearchService.preprocessQuery query) store [] (limit * 2) kw vw th = [])
    (hkw : SearchService.keywordSearch (SearchService.preprocessQuery query)
      [] (limit * 2) = [])
    (hsem : SearchService.searchSimilar embedQ enabled
      (SearchService.preprocessQuery query) store (limit * 2) 0.3 none = []) :
    (SearchService.newSearch embedQ enabled query store mode limit kw vw
      th).results = [] ∧
    (SearchService.newSearch embedQ enabled query store mode limit kw vw
      th).total_found = 0 := by
  by_cases h1 : mode = "smart_hybrid"
  · subst h1
    simp only [SearchService.newSearch, eq_self_iff_true, if_true, ite_true,
      hhyb, List.map_nil]
    simp [SearchService.applyMassSelection]
  · by_cases h2 : mode = "keyword"
    · subst h2
      have hne : ("keyword" : String) ≠ "smart_hybrid" := by decide
      simp only [SearchService.newSearch, hne, if_false, ite_false,
        eq_self_iff_true, if_true, ite_true, hkw, List.map_nil]
      simp [SearchService.applyMassSelection]
    · by_cases h3 : mode = "semantic"
      · subst h3
        have hne1 : ("semantic" : String) ≠ "smart_hybrid" := by decide
        have hne2 : ("semantic" : String) ≠ "keyword" := by decide
        simp only [SearchService.newSearch, hne1, hne2, if_false, ite_false,
          eq_self_iff_true, if_true, ite_true, hsem, List.map_nil]
        simp [SearchService.applyMassSelection]
      · simp only [SearchService.newSearch, h1, h2, h3, if_false, ite_false,
          hhyb, List.map_nil]
        simp [SearchService.applyMassSelection]

/-- C4 (amended): with both the document corpus and the vector store
empty, every mode of `new_search` returns empty results with
`total_found = 0` (for hybrid this relies on every query token occurring
in all five substituted mock documents, so all keyword scores vanish);
and an empty-string query returns empty results in every mode whenever
the embedding provider yields no embedding for the empty string. -/
theorem c4_degenerate_inputs :
    (∀ (embedQ : String → List ℝ) (enabled : Bool) (query mode : String)
        (limit : ℕ) (kw vw th : ℝ),
      (SearchService.newSearch embedQ enabled query [] mode limit kw vw
        th).results = [] ∧
      (SearchService.newSearch embedQ enabled query [] mode limit kw vw
        th).total_found = 0) ∧
    (∀ (embedQ : String → List ℝ) (enabled : Bool)
        (store : SearchService.Store) (mode : String) (limit : ℕ)
        (kw vw th : ℝ), embedQ "" = [] →
      (SearchService.newSearch embedQ enabled "" store mode limit kw vw
        th).results = [] ∧
      (SearchService.newSearch embedQ enabled "" store mode limit kw vw
        th).total_found = 0) := by
  constructor
  · intro embedQ enabled query mode limit kw vw th
    have hvecnil : ∀ (q' : String) (lim : ℕ) (t' : ℝ)
        (ids : Option (List String)),
        SearchService.searchSimilar embedQ enabled q' [] lim t' ids = [] :=
      fun q' lim t' ids => searchSimilar_no_chunks embedQ enabled q' [] lim
        t' ids (by intro d hd; simp at hd)
    apply newSearch_routed_empty
    · apply hybridSearch_nil_of
      · simp only [List.isEmpty_nil, if_true]
        exact keywordSearch_mock_empty _ _
      · exact hvecnil _ _ _ _
    · exact keywordSearch_nil_docs _ _
    · exact hvecnil _ _ _ _
  · intro embedQ enabled store mode limit kw vw th hq
    have hprep : SearchService.preprocessQuery "" = "" := rfl
    apply newSearch_routed_empty
    · apply hybridSearch_nil_of
      · rw [hprep]
        simp only [List.isEmpty_nil, if_true]
        exact keywordSearch_mock_empty _ _
      · apply searchSimilar_embed_fail
        rw [hprep]
        exact hq
    · exact keywordSearch_nil_docs _ _
    · apply searchSimilar_embed_fail
      rw [hprep]
      exact hq

/-- Witness for C4 (amended) at concrete degenerate inputs. -/
theorem c4_degenerate_inputs_witness :
    (SearchService.newSearch (fun _ => []) true "monthly revenue" []
      "smart_hybrid" 10 0.4 0.6 0.1).total_found = 0 ∧
    (SearchService.newSearch (fun _ => []) true "" [⟨"a", []⟩]
      "semantic" 10 0.4 0.6 0.1).results = [] :=
  ⟨(c4_degenerate_inputs.1 (fun _ => []) true "monthly revenue"
      "smart_hybrid" 10 0.4 0.6 0.1).2,
    (c4_degenerate_inputs.2 (fun _ => []) true [⟨"a", []⟩] "semantic" 10
      0.4 0.6 0.1 rfl).1⟩

/-- Concrete vector retrieval against the mock document ids: the store
document `doc_1` collides with a mock id and is returned with
similarity 1. -/
theorem searchSimilar_doc1_eval (limit : ℕ) (hl : 1 ≤ limit) :
    SearchService.searchSimilar (fun _ => [1]) true "hello"
        [⟨"doc_1", [⟨0, "chunk text", [1]⟩]⟩] limit 0.1
        (some ((SearchService.mockDocuments "hello").map (fun d => d.id))) =
      [⟨"doc_1", 0, "chunk text", 1, 1⟩] := by
  have hids : (SearchService.mockDocuments "hello").map (fun d => d.id) =
      ["doc_1", "doc_2", "doc_3", "doc_4", "doc_5"] := by decide
  rw [hids]
  unfold SearchService.searchSimilar
  simp only [Bool.not_true, Bool.false_eq_true, if_false]
  rw [if_neg (by simp)]
  have hf1 : ([⟨"doc_1", [⟨0, "chunk text", [1]⟩]⟩] :
      SearchService.Store).find? (fun d => d.id == "doc_1") =
      some ⟨"doc_1", [⟨0, "chunk text", [1]⟩]⟩ := by
    simp [List.find?]
  have hf2 : ([⟨"doc_1", [⟨0, "chunk text", [1]⟩]⟩] :
      SearchService.Store).find? (fun d => d.id == "doc_2") = none := by
    simp [List.find?, show (("doc_1" : String) == "doc_2") = false from by decide]
  have hf3 : ([⟨"doc_1", [⟨0, "chunk text", [1]⟩]⟩] :
      SearchService.Store).find? (fun d => d.id == "doc_3") = none := by
    simp [List.find?, show (("doc_1" : String) == "doc_3") = false from by decide]
  have hf4 : ([⟨"doc_1", [⟨0, "chunk text", [1]⟩]⟩] :
      SearchService.Store).find? (fun d => d.id == "doc_4") = none := by
    simp [List.find?, show (("doc_1" : String) == "doc_4") = false from by decide]
  have hf5 : ([⟨"doc_1", [⟨0, "chunk text", [1]⟩]⟩] :
      SearchService.Store).find? (fun d => d.id == "doc_5") = none := by
    simp [List.find?, show (("doc_1" : String) == "doc_5") = false from by decide]
  simp only [List.map_cons, List.map_nil, hf1, hf2, hf3, hf4, hf5]
  simp [npCosine_one, show (0.1 : ℝ) ≤ 1 from by norm_num, sortDesc_singleton]
  exact hl

/-- Concrete hybrid retrieval with an empty document corpus: the mock
documents are substituted, the keyword side is empty, and the vector hit
on the colliding id `doc_1` is fused to `0 * 0.4 + 1 * 0.6 = 0.6`,
returning the mock document as a result. -/
theorem hybridSearch_doc1_eval (limit : ℕ) (hl : 1 ≤ limit) :
    SearchService.hybridSearch (fun _ => [1]) true "hello"
        [⟨"doc_1", [⟨0, "chunk text", [1]⟩]⟩] [] limit 0.4 0.6 0.1 =
      [⟨⟨"doc_1", "Mock document 1 content related to: hello"⟩,
        0, 1, 0.6, 0.6⟩] := by
  unfold SearchService.hybridSearch
  simp only [List.isEmpty_nil, if_true, ite_true]
  rw [keywordSearch_mock_empty, searchSimilar_doc1_eval (limit * 2) (by omega)]
  have hfm : (SearchService.mockDocuments "hello").find?
      (fun d => d.id == "doc_1") =
      some ⟨"doc_1", "Mock document 1 content related to: hello"⟩ := by decide
  have hcs : SearchService.combineScores []
      [⟨"doc_1", 0, "chunk text", 1, 1⟩]
      (SearchService.mockDocuments "hello") 0.4 0.6 0.1 "doc_1" =
      some ⟨⟨"doc_1", "Mock document 1 content related to: hello"⟩,
        0, 1, 0.6, 0.6⟩ := by
    unfold SearchService.combineScores
    have hv : ([⟨"doc_1", 0, "chunk text", 1, 1⟩] :
        List SearchService.VecResult).reverse.find?
        (fun r => r.document_id == "doc_1") =
        some ⟨"doc_1", 0, "chunk text", 1, 1⟩ := by
      simp [List.find?]
    simp only [List.reverse_nil, List.find?_nil, hv, hfm]
    norm_num
  simp [List.filterMap_cons, hcs, sortDesc_singleton]
  exact hl

/-- C4 counterexample: retrieval in `smart_hybrid` mode over a corpus of
size 0 does not return `total_found = 0`: the mock documents substituted
for the empty corpus collide with a vector-store document whose id is
`doc_1`, and the fabricated mock document is returned as a hit. -/
theorem c4_counterexample :
    (SearchService.newSearch (fun _ => [1]) true "hello"
        [⟨"doc_1", [⟨0, "chunk text", [1]⟩]⟩] "smart_hybrid" 10 0.4 0.6
        0.1).total_found = 1 ∧ (1 : ℕ) ≠ 0 := by
  refine ⟨?_, by decide⟩
  have hprep : SearchService.preprocessQuery "hello" = "hello" := by decide
  simp only [SearchService.newSearch, eq_self_iff_true, if_true, ite_true,
    hprep, hybridSearch_doc1_eval (10 * 2) (by norm_num), List.map_cons,
    List.map_nil]
  rfl
